import Mathlib

/-!
Shallow embedding of the color utilities and theme validator of the
vscode-theme-generator repository (`color_utils.py`, `validator.py`,
`ai_enhancer.py`), together with proofs about the claims on them.
Python floats are modelled by exact arithmetic (ℚ for the brightness
arithmetic, ℝ for the WCAG luminance formula which uses a real power).
Python exceptions are modelled by `Option`/`Except`.
-/

namespace ThemeGen

/-- The character class `[0-9A-Fa-f]` used by the hex regexes. -/
def isHexChar (c : Char) : Bool :=
  ('0' ≤ c && c ≤ '9') || ('A' ≤ c && c ≤ 'F') || ('a' ≤ c && c ≤ 'f')

/-- Value of one hex digit, as accepted by Python `int(_, 16)`. -/
def hexDigitVal (c : Char) : Option Nat :=
  if c ≤ '9' ∧ '0' ≤ c then some (c.toNat - '0'.toNat)
  else if c ≤ 'F' ∧ 'A' ≤ c then some (c.toNat - 'A'.toNat + 10)
  else if c ≤ 'f' ∧ 'a' ≤ c then some (c.toNat - 'a'.toNat + 10)
  else none

/-- Parse a nonempty all-hex char list as a number (Python `int(s, 16)`);
`none` models the `ValueError` raised on an empty or non-hex string. -/
def parseHexDigits (cs : List Char) (acc : Nat) : Option Nat :=
  match cs with
  | [] => some acc
  | c :: rest =>
    match hexDigitVal c with
    | some d => parseHexDigits rest (16 * acc + d)
    | none => none

/-- Python `int(s, 16)` on a (possibly empty) slice of a hex string. -/
def parseHexNat (cs : List Char) : Option Nat :=
  if cs.isEmpty then none else parseHexDigits cs 0

/-- Python re `$`: matches at the end of the string or just before a
newline that is the last character of the string. -/
def pyLineEnd (cs : List Char) : Bool :=
  cs.isEmpty || cs == ['\n']

/-- Match `[0-9A-Fa-f]{n}$` (Python semantics for `$`) against `cs`. -/
def matchHexN (cs : List Char) (n : Nat) : Bool :=
  ((cs.take n).length == n) && (cs.take n).all isHexChar && pyLineEnd (cs.drop n)

/-- `validate_hex_color` from `color_utils.py`:
`re.match(r'^#[0-9A-Fa-f]{6}$|^#[0-9A-Fa-f]{8}$', color)`. -/
def validate_hex_color (s : String) : Bool :=
  match s.data with
  | '#' :: rest => matchHexN rest 6 || matchHexN rest 8
  | _ => false

/-- `hex_to_rgb` from `color_utils.py`: strip leading `#`s, drop the
alpha byte of an 8-char value, parse the three 2-char slices. -/
def hex_to_rgb (s : String) : Option (Nat × Nat × Nat) := do
  let cs0 := s.data.dropWhile (fun c => c == '#')
  let cs := if cs0.length = 8 then cs0.take 6 else cs0
  let r ← parseHexNat ((cs.drop 0).take 2)
  let g ← parseHexNat ((cs.drop 2).take 2)
  let b ← parseHexNat ((cs.drop 4).take 2)
  return (r, g, b)

/-- Hex digit character, lowercase (as produced by Python `%x`). -/
def hexChar (n : Nat) : Char :=
  if n < 10 then Char.ofNat ('0'.toNat + n) else Char.ofNat ('a'.toNat + n - 10)

/-- Hex digits of `n`, most significant first (fuel-based so that it
reduces definitionally). -/
def natHexDigitsAux : Nat → Nat → List Char → List Char
  | 0, _, acc => acc
  | fuel + 1, n, acc =>
    if n < 16 then hexChar n :: acc
    else natHexDigitsAux fuel (n / 16) (hexChar (n % 16) :: acc)

/-- All hex digits of `n` (at least one). -/
def natHexDigits (n : Nat) : List Char :=
  natHexDigitsAux (n + 1) n []

/-- Python `"%02x" % n`: hex digits of `n`, zero-padded to width 2. -/
def pad2 (n : Nat) : List Char :=
  let ds := natHexDigits n
  List.replicate (2 - ds.length) '0' ++ ds

/-- `rgb_to_hex` from `color_utils.py`: `f"#{r:02x}{g:02x}{b:02x}"`. -/
def rgb_to_hex (r g b : Nat) : String :=
  ⟨'#' :: (pad2 r ++ pad2 g ++ pad2 b)⟩

/-- `max(0, min(255, i))` followed by use as an unsigned channel. -/
def clampChannel (i : Int) : Nat :=
  (max 0 (min 255 i)).toNat

/-- Fuel-based binary length of a natural number (`0` for `0`; the
fuel 256 covers every magnitude arising below, and the function reduces
definitionally). -/
def bitsAux : Nat → Nat → Nat
  | 0, _ => 0
  | fuel + 1, n => if n = 0 then 0 else bitsAux fuel (n / 2) + 1

def bitlen (n : Nat) : Nat := bitsAux 256 n

/-- Round the exact dyadic `m * 2^e` to at most 53 significant bits,
to nearest with ties to even: the IEEE-754 binary64 rounding of a real
result whose magnitude is far inside the normal range (every quantity
in `adjust_brightness` lies in `[2^-60, 2^9]` or is zero, so overflow
and subnormals cannot occur and the exponent needs no range check). -/
def fround : Int × Int → Int × Int
  | (m, e) =>
    let n := m.natAbs
    let k := bitlen n
    if k ≤ 53 then (m, e)
    else
      let d := k - 53
      let q := n / 2 ^ d
      let r := n % 2 ^ d
      let half := 2 ^ (d - 1)
      let q2 := if half < r then q + 1
        else if r < half then q
        else if q % 2 = 1 then q + 1 else q
      (if m < 0 then -(q2 : Int) else (q2 : Int), e + d)

/-- The binary64 value of Python `p / 100` (true division of ints is
correctly rounded), as an exact dyadic `mantissa * 2^exponent`: the
quotient is computed to 70 fractional bits and rounded to 53
significant bits with the exact remainder deciding the direction. -/
def fdiv100 (p : Int) : Int × Int :=
  if p = 0 then (0, 0)
  else
    let n := p.natAbs
    let A := n * 2 ^ 70
    let Q := A / 100
    let R := A % 100
    let d := bitlen Q - 53
    let q := Q / 2 ^ d
    let r := Q % 2 ^ d
    let m := if 100 * 2 ^ (d - 1) < 100 * r + R then q + 1
      else if 100 * r + R < 100 * 2 ^ (d - 1) then q
      else if q % 2 = 1 then q + 1 else q
    (if p < 0 then -(m : Int) else (m : Int), (d : Int) - 70)

/-- Binary64 addition: the exact dyadic sum, rounded (IEEE addition is
correctly rounded). -/
def fadd (x y : Int × Int) : Int × Int :=
  let e := min x.2 y.2
  fround (x.1 * 2 ^ (x.2 - e).toNat + y.1 * 2 ^ (y.2 - e).toNat, e)

/-- `factor = 1 + (percent / 100)` of `adjust_brightness`, computed in
binary64 as Python does. -/
def float_factor (p : Int) : Int × Int := fadd (1, 0) (fdiv100 p)

/-- The binary64 product `channel * factor` (the channel, at most 255,
converts to float exactly; IEEE multiplication is correctly rounded,
here the exact dyadic product rounded). -/
def float_scaled (c : Nat) (p : Int) : Int × Int :=
  fround ((c : Int) * (float_factor p).1, (float_factor p).2)

/-- Python `int()` on a float: truncation toward zero. -/
def ftrunc : Int × Int → Int
  | (m, e) => if 0 ≤ e then m * 2 ^ e.toNat else Int.tdiv m (2 ^ (-e).toNat)

/-- `adjust_brightness` from `color_utils.py`: `factor = 1 + (percent / 100)`
is computed in IEEE-754 binary64 (modelled exactly: each float operation
is the correctly rounded dyadic result), and each channel becomes
`max(0, min(255, int(channel * factor)))`. -/
def adjust_brightness (s : String) (percent : Int) : Option String :=
  (hex_to_rgb s).map fun rgb =>
    rgb_to_hex (clampChannel (ftrunc (float_scaled rgb.1 percent)))
      (clampChannel (ftrunc (float_scaled rgb.2.1 percent)))
      (clampChannel (ftrunc (float_scaled rgb.2.2 percent)))

/-- The per-channel normalization of `get_luminance` (WCAG sRGB). -/
noncomputable def adjust_channel (channel : Nat) : ℝ :=
  let c : ℝ := channel / 255
  if c ≤ 0.03928 then c / 12.92 else ((c + 0.055) / 1.055) ^ (2.4 : ℝ)

/-- `get_luminance` from `color_utils.py` (WCAG relative luminance). -/
noncomputable def get_luminance (s : String) : Option ℝ :=
  (hex_to_rgb s).map fun rgb =>
    0.2126 * adjust_channel rgb.1 + 0.7152 * adjust_channel rgb.2.1
      + 0.0722 * adjust_channel rgb.2.2

/-- `calculate_contrast_ratio` from `color_utils.py`. -/
noncomputable def calculate_contrast_ratio (bg_color fg_color : String) : Option ℝ := do
  let l1 ← get_luminance bg_color
  let l2 ← get_luminance fg_color
  return (max l1 l2 + 0.05) / (min l1 l2 + 0.05)

/-- ASCII lowercase/uppercase letter pairs, driving the case maps. -/
def lowerUpper : List (Char × Char) :=
  List.zip "abcdefghijklmnopqrstuvwxyz".data "ABCDEFGHIJKLMNOPQRSTUVWXYZ".data

/-- Python `str.upper` on one character (ASCII range, which covers the
hex digits and identifiers this program manipulates). -/
def upChar (c : Char) : Char :=
  match lowerUpper.find? (fun p => p.1 == c) with
  | some p => p.2
  | none => c

/-- Python `str.lower` on one character (ASCII range). -/
def lowChar (c : Char) : Char :=
  match lowerUpper.find? (fun p => p.2 == c) with
  | some p => p.1
  | none => c

/-- Python `str.upper` on a string. -/
def pyUpper (s : String) : String :=
  ⟨s.data.map upChar⟩

def isAsciiLetter (c : Char) : Bool :=
  ('a' ≤ c && c ≤ 'z') || ('A' ≤ c && c ≤ 'Z')

def isDigitChar (c : Char) : Bool :=
  '0' ≤ c && c ≤ '9'

/-- Python `str.title`: first cased character of each run uppercased,
the rest lowercased (the boolean tracks whether the previous character
was a letter). -/
def titleAux : List Char → Bool → List Char
  | [], _ => []
  | c :: rest, prev =>
    (if isAsciiLetter c then (if prev then lowChar c else upChar c) else c)
      :: titleAux rest (isAsciiLetter c)

def pyTitle (s : String) : String :=
  ⟨titleAux s.data false⟩

/-- Python `s.replace('_', ' ')`. -/
def underscoreToSpace (s : String) : String :=
  ⟨s.data.map (fun c => if c == '_' then ' ' else c)⟩

/-- Python values as manipulated by the validator: strings, ints,
lists, (string-keyed, insertion-ordered) dicts, and `None`. -/
inductive Val where
  | str (s : String)
  | int (n : Int)
  | list (xs : List Val)
  | dict (kvs : List (String × Val))
  | null

/-- Python `type(v).__name__` for the modelled values. -/
def pyTypeName : Val → String
  | .str _ => "str"
  | .int _ => "int"
  | .list _ => "list"
  | .dict _ => "dict"
  | .null => "NoneType"

/-- Python truthiness of a value. -/
def pyTruthy : Val → Bool
  | .str s => !s.isEmpty
  | .int n => n != 0
  | .list xs => !xs.isEmpty
  | .dict kvs => !kvs.isEmpty
  | .null => false

/-- `d[k]` lookup in a Python dict modelled as an ordered assoc list. -/
def dlookup {α : Type} : List (String × α) → String → Option α
  | [], _ => none
  | (k', v) :: rest, k => if k' = k then some v else dlookup rest k

/-- `k in d` for a Python dict. -/
def dmem {α : Type} (kvs : List (String × α)) (k : String) : Bool :=
  (dlookup kvs k).isSome

/-- `d[k] = v` assignment: update in place if present, else append
(Python dicts keep insertion order). -/
def dset {α : Type} : List (String × α) → String → α → List (String × α)
  | [], k, v => [(k, v)]
  | (k', v') :: rest, k, v =>
    if k' = k then (k', v) :: rest else (k', v') :: dset rest k v

/-- `REQUIRED_COLOR_KEYS` from `constants.py`. -/
def REQUIRED_COLOR_KEYS : List String :=
  ["editor.background", "editor.foreground",
   "activityBar.background", "activityBar.foreground",
   "sideBar.background", "sideBar.foreground",
   "statusBar.background", "statusBar.foreground"]

/-- The character class `[a-z0-9\-_]` of the theme-name pattern. -/
def isNameChar (c : Char) : Bool :=
  ('a' ≤ c && c ≤ 'z') || ('0' ≤ c && c ≤ '9') || c == '-' || c == '_'

/-- Python `re.match(r'^[cl]+$', s)` for a character class `cl`
(`$` also matches before a final newline). -/
def matchClassPlusDollar (isCl : Char → Bool) (cs : List Char) : Bool :=
  (!cs.isEmpty && cs.all isCl)
    || (cs.getLast? == some '\n' && !cs.dropLast.isEmpty && cs.dropLast.all isCl)

/-- Python `re.match(r'^\d+\.\d+\.\d+$', s)`. -/
def matchVersionPattern (cs : List Char) : Bool :=
  let d1 := cs.takeWhile isDigitChar
  let r1 := cs.dropWhile isDigitChar
  !d1.isEmpty &&
    match r1 with
    | '.' :: r2 =>
      let d2 := r2.takeWhile isDigitChar
      let r3 := r2.dropWhile isDigitChar
      !d2.isEmpty &&
        match r3 with
        | '.' :: r4 =>
          let d3 := r4.takeWhile isDigitChar
          let r5 := r4.dropWhile isDigitChar
          !d3.isEmpty && pyLineEnd r5
        | _ => false
    | _ => false

def isEmailLocalChar (c : Char) : Bool :=
  isAsciiLetter c || isDigitChar c || c == '.' || c == '_' || c == '%' || c == '+' || c == '-'

def isEmailDomainChar (c : Char) : Bool :=
  isAsciiLetter c || isDigitChar c || c == '.' || c == '-'

/-- Python `re.match(r'^[a-zA-Z0-9._%+-]+@[a-zA-Z0-9.-]+\.[a-zA-Z]{2,}$', s)`:
the local part runs to the (unique possible) `@`; the split of the domain
at the last literal `.` is found by search, matching regex backtracking. -/
def matchEmailPattern (cs : List Char) : Bool :=
  let loc := cs.takeWhile (fun c => c != '@')
  match cs.dropWhile (fun c => c != '@') with
  | '@' :: tailA =>
    !loc.isEmpty && loc.all isEmailLocalChar &&
      (List.range (tailA.length + 1)).any (fun p =>
        let mid := tailA.take p
        !mid.isEmpty && mid.all isEmailDomainChar &&
          match tailA.drop p with
          | '.' :: r =>
            decide (2 ≤ (r.takeWhile isAsciiLetter).length)
              && pyLineEnd (r.dropWhile isAsciiLetter)
          | _ => false)
  | _ => false

/-- `ThemeValidator._get_minimal_required_colors`. -/
def _get_minimal_required_colors : List (String × String) :=
  [("editor.background", "#1e1e1e"), ("editor.foreground", "#d4d4d4"),
   ("activityBar.background", "#333333"), ("activityBar.foreground", "#ffffff"),
   ("sideBar.background", "#252526"), ("sideBar.foreground", "#cccccc"),
   ("statusBar.background", "#007acc"), ("statusBar.foreground", "#ffffff")]

/-- Python `needle in hay` substring test. -/
def containsSub (needle hay : List Char) : Bool :=
  (List.range (hay.length + 1)).any fun i => needle.isPrefixOf (hay.drop i)

/-- `ThemeValidator._get_default_color_for_key`. -/
def _get_default_color_for_key (key : String) : String :=
  match dlookup _get_minimal_required_colors key with
  | some c => c
  | none =>
    if containsSub "background".data key.data then "#1e1e1e"
    else if containsSub "foreground".data key.data then "#d4d4d4"
    else "#808080"

/-- Python `''.join([c*2 for c in hex_part])`. -/
def joinDoubled (cs : List Char) : List Char :=
  cs.flatMap (fun c => [c, c])

/-- The per-entry loop of `ThemeValidator._fix_colors`, accumulating
into the fresh `fixed_colors` dict. -/
def fix_colors_loop : List (String × Val) → List (String × Val) → List (String × Val)
  | [], acc => acc
  | (key, v) :: rest, acc =>
    match v with
    | .str value =>
      if value.data.head? = some '#' then
        let hex_part := value.data.tail.map upChar
        if hex_part.length = 3 then
          fix_colors_loop rest (dset acc key (.str ⟨'#' :: joinDoubled hex_part⟩))
        else if hex_part.length = 6 ∨ hex_part.length = 8 then
          fix_colors_loop rest (dset acc key (.str ⟨'#' :: hex_part⟩))
        else
          fix_colors_loop rest acc
      else
        if matchHexN value.data 6 then
          fix_colors_loop rest (dset acc key (.str ⟨'#' :: value.data.map upChar⟩))
        else
          fix_colors_loop rest acc
    | _ => fix_colors_loop rest acc

/-- `ThemeValidator._fix_colors`: normalize/drop each entry, then add
per-key defaults for missing required colors. -/
def _fix_colors (colors : List (String × Val)) : List (String × Val) :=
  REQUIRED_COLOR_KEYS.foldl
    (fun acc key =>
      if dmem acc key then acc
      else dset acc key (.str (_get_default_color_for_key key)))
    (fix_colors_loop colors [])

/-- Scope normalization inside `_fix_token_colors`: a string scope
becomes a one-element list, a list is kept, anything else drops the
token. -/
def token_scope : Val → Option Val
  | .str s => some (.list [.str s])
  | .list xs => some (.list xs)
  | _ => none

/-- The `settings` dict assembled by `_fix_token_colors`: a hex-valid
string foreground, then `fontStyle` and `background`, all other keys
dropped; empty when the token has no dict `settings`. -/
def token_settings (t : List (String × Val)) : List (String × Val) :=
  match dlookup t "settings" with
  | some (.dict sd) =>
    (match dlookup sd "foreground" with
     | some (.str fg) =>
       if validate_hex_color fg then [("foreground", Val.str fg)] else []
     | _ => []) ++
    (match dlookup sd "fontStyle" with
     | some v => [("fontStyle", v)]
     | none => []) ++
    (match dlookup sd "background" with
     | some v => [("background", v)]
     | none => [])
  | _ => []

/-- The per-token body of `ThemeValidator._fix_token_colors`: `none`
means the token is dropped. -/
def fix_token (token : Val) : Option Val :=
  match token with
  | .dict t =>
    match dlookup t "scope" with
    | some sv =>
      match token_scope sv with
      | some scopeVal =>
        if (token_settings t).isEmpty then none
        else
          some (.dict
            ([("scope", scopeVal), ("settings", Val.dict (token_settings t))] ++
              (match dlookup t "name" with
               | some nv => [("name", nv)]
               | none => [])))
      | none => none
    | none => none
  | _ => none

/-- `ThemeValidator._fix_token_colors` (non-list input yields `[]`). -/
def _fix_token_colors (v : Val) : List Val :=
  match v with
  | .list tokens => tokens.filterMap fix_token
  | _ => []

/-- The `display_name` default of `fix_theme`: built by
`theme_data['name'].replace('_', ' ').title()`; raises (modelled by
`Except.error`) when `name` is not a string. -/
def fix_display_name (td : List (String × Val)) : Except String (List (String × Val)) :=
  if dmem td "display_name" then pure td
  else
    match dlookup td "name" with
    | some (.str n) =>
      pure (dset td "display_name" (.str (pyTitle (underscoreToSpace n))))
    | _ => throw "AttributeError: name has no attribute replace"

/-- The `colors` mutation of `fix_theme`: run `_fix_colors` on a dict,
raise on a non-dict value, install the minimal defaults when absent. -/
def fix_colors_step (td : List (String × Val)) : Except String (List (String × Val)) :=
  match dlookup td "colors" with
  | some (.dict c) => pure (dset td "colors" (.dict (_fix_colors c)))
  | some _ => throw "TypeError: colors is not a dict"
  | none =>
    pure (dset td "colors"
      (.dict (_get_minimal_required_colors.map fun p => (p.1, Val.str p.2))))

/-- The `token_colors` mutation of `fix_theme`: rewrite the entry
through `_fix_token_colors` when present. -/
def fix_token_step (td : List (String × Val)) : List (String × Val) :=
  match dlookup td "token_colors" with
  | some tv => dset td "token_colors" (.list (_fix_token_colors tv))
  | none => td

/-- The mutations `fix_theme` performs on the theme data dict, in
source order: default `name`, default `display_name`, default
`description` and `version`, fix `colors`, fix `token_colors`.
`Except.error` models an uncaught Python exception. -/
def fix_theme_data (td0 : List (String × Val)) : Except String (List (String × Val)) :=
  let td1 := if dmem td0 "name" then td0 else dset td0 "name" (.str "unnamed_theme")
  fix_display_name td1 >>= fun td2 =>
    let td3 := if dmem td2 "description" then td2
      else dset td2 "description" (.str "A custom VS Code theme")
    let td4 := if dmem td3 "version" then td3 else dset td3 "version" (.str "1.0.0")
    fix_colors_step td4 >>= fun td5 =>
      pure (fix_token_step td5)

/-- `ThemeValidator.fix_theme`: wrap the data in a `theme` key when
missing, mutate the (shared) theme data, return the wrapper. -/
def fix_theme (theme_def : Val) : Except String Val :=
  match theme_def with
  | .dict kvs =>
    if dmem kvs "theme" then
      match dlookup kvs "theme" with
      | some (.dict td) =>
        (fix_theme_data td).map fun td' => Val.dict (dset kvs "theme" (.dict td'))
      | _ => throw "TypeError: theme data is not a dict"
    else
      (fix_theme_data kvs).map fun td' => Val.dict [("theme", Val.dict td')]
  | _ => throw "TypeError: theme definition is not a dict"

/-- The name-format check of `_validate_required_fields`; raises
(models the `re.match` `TypeError`) when `name` is present but not a
string. -/
def name_format_errors (td : List (String × Val)) : Except String (List String) :=
  match dlookup td "name" with
  | some (.str n) =>
    .ok (if matchClassPlusDollar isNameChar n.data then []
      else ["Invalid theme name format: " ++ n ++
        ". Use only lowercase letters, numbers, hyphens, and underscores."])
  | some _ => .error "TypeError: re.match on non-string name"
  | none => .ok []

/-- `ThemeValidator._validate_required_fields`. -/
def _validate_required_fields (td : List (String × Val)) : Except String (List String) := do
  let e1 := if dmem td "name" then [] else ["Missing required field: name"]
  let e2 := if dmem td "colors" then [] else ["Missing required field: colors"]
  let e3 ← name_format_errors td
  return e1 ++ e2 ++ e3

/-- `ThemeValidator._validate_colors` (total: every branch only appends
error strings). -/
def _validate_colors (colors : List (String × Val)) : List String :=
  let missing := REQUIRED_COLOR_KEYS.filter (fun k => !dmem colors k)
  let e1 := if missing.isEmpty then []
    else ["Missing required colors: " ++ String.intercalate ", " missing]
  let e2 := colors.flatMap fun kv =>
    match kv.2 with
    | .str s =>
      if validate_hex_color s then []
      else ["Invalid color format for '" ++ kv.1 ++ "': " ++ s]
    | v => ["Color value for '" ++ kv.1 ++ "' must be a string (got " ++ pyTypeName v ++ ")"]
  e1 ++ e2

/-- The scope checks of `_validate_token_colors` for one token; raises
when a list scope holds a non-string (the `', '.join(scope)` log
line). An invalid scope type is only logged, not recorded. -/
def scope_errors (idx : Nat) (tk : List (String × Val)) : Except String (List String) :=
  match dlookup tk "scope" with
  | none => .ok ["Token color at index " ++ toString idx ++ " missing 'scope'"]
  | some (.str _) => .ok []
  | some (.list xs) =>
    if xs.all (fun x => match x with | .str _ => true | _ => false) then .ok []
    else .error "TypeError: join on non-string scope entries"
  | some _ => .ok []

/-- The settings checks of `_validate_token_colors` for one token;
raises when a present `foreground` is not a string
(`validate_hex_color` applies `re.match` to it). -/
def settings_errors (idx : Nat) (tk : List (String × Val)) : Except String (List String) :=
  match dlookup tk "settings" with
  | none => .ok ["Token color at index " ++ toString idx ++ " missing 'settings'"]
  | some (.dict sd) =>
    (match dlookup sd "foreground" with
     | none => .ok []
     | some (.str fg) =>
       .ok (if validate_hex_color fg then []
         else ["Invalid foreground color at index " ++ toString idx ++ ": " ++ fg])
     | some _ => .error "TypeError: re.match on non-string foreground")
  | some _ =>
    .ok ["Token color settings at index " ++ toString idx ++ " must be a dictionary"]

/-- The per-token checks of `_validate_token_colors`. -/
def token_errors (idx : Nat) (t : Val) : Except String (List String) :=
  match t with
  | .dict tk => do
    let e1 ← scope_errors idx tk
    let e2 ← settings_errors idx tk
    return e1 ++ e2
  | _ => .ok ["Token color at index " ++ toString idx ++ " must be a dictionary"]

def token_errors_loop : Nat → List Val → Except String (List String)
  | _, [] => .ok []
  | idx, t :: rest => do
    let e ← token_errors idx t
    let es ← token_errors_loop (idx + 1) rest
    return e ++ es

/-- `ThemeValidator._validate_token_colors`. -/
def _validate_token_colors (v : Val) : Except String (List String) :=
  match v with
  | .list tokens => token_errors_loop 0 tokens
  | other => .ok ["token_colors must be a list (got " ++ pyTypeName other ++ ")"]

/-- The version check of `_validate_metadata`; raises when `version`
is present but not a string. -/
def version_errors (td : List (String × Val)) : Except String (List String) :=
  match dlookup td "version" with
  | none => .ok []
  | some (.str v) =>
    .ok (if matchVersionPattern v.data then []
      else ["Invalid version format: " ++ v ++ ". Use semantic versioning (e.g., 1.0.0)"])
  | some _ => .error "TypeError: re.match on non-string version"

/-- The author check of `_validate_metadata`; raises when a truthy
`author.email` is present but not a string. -/
def author_errors (td : List (String × Val)) : Except String (List String) :=
  match dlookup td "author" with
  | some (.dict a) =>
    (match dlookup a "email" with
     | some em =>
       (if pyTruthy em then
         (match em with
          | .str e => .ok (if matchEmailPattern e.data then []
              else ["Invalid email format: " ++ e])
          | _ => .error "TypeError: re.match on non-string email")
        else .ok [])
     | none => .ok [])
  | _ => .ok []

/-- `ThemeValidator._validate_metadata`. -/
def _validate_metadata (td : List (String × Val)) : Except String (List String) := do
  let e1 ← version_errors td
  let e2 ← author_errors td
  return e1 ++ e2

/-- The theme-data extraction at the top of `validate_with_errors`:
the whole dict when there is no `theme` key, otherwise its value,
which must support `.keys()` (a log f-string) — i.e. be a dict. -/
def extract_theme_data (defKvs : List (String × Val)) : Except String (List (String × Val)) :=
  if dmem defKvs "theme" then
    (match dlookup defKvs "theme" with
     | some (.dict td) => .ok td
     | _ => .error "AttributeError: theme data has no attribute keys")
  else .ok defKvs

/-- The colors section of `validate_with_errors`; a non-dict `colors`
value raises (`len` in a log f-string or `.items()`). -/
def colors_section_errors (td : List (String × Val)) : Except String (List String) :=
  match dlookup td "colors" with
  | some (.dict c) => .ok (_validate_colors c)
  | some _ => .error "TypeError: colors is not a dict"
  | none => .ok []

/-- The token-colors section of `validate_with_errors`; a
`token_colors` value on which Python `len` fails raises inside a log
f-string before `_validate_token_colors` runs. -/
def token_section_errors (td : List (String × Val)) : Except String (List String) :=
  match dlookup td "token_colors" with
  | some (.int _) => .error "TypeError: len of int"
  | some .null => .error "TypeError: len of NoneType"
  | some tv => _validate_token_colors tv
  | none => .ok []

/-- `ThemeValidator.validate_with_errors`: run all rule groups in
order, collecting error strings; `valid` is `errors == []`. -/
def validate_with_errors (theme_def : Val) : Except String (Bool × List String) :=
  match theme_def with
  | .dict defKvs => do
    let td ← extract_theme_data defKvs
    let e1 ← _validate_required_fields td
    let e2 ← colors_section_errors td
    let e3 ← token_section_errors td
    let e4 ← _validate_metadata td
    let errs := e1 ++ e2 ++ e3 ++ e4
    return (errs.isEmpty, errs)
  | _ => .error "TypeError: theme definition is not a dict"

/-- The fixed `contrast_pairs` table of `AIEnhancer._check_and_fix_contrast`
(the float minimums 7.0 and 4.5 are exactly representable). -/
def contrast_pairs : List (String × String × ℚ) :=
  [("editor.background", "editor.foreground", 7),
   ("activityBar.background", "activityBar.foreground", 4.5),
   ("sideBar.background", "sideBar.foreground", 4.5),
   ("statusBar.background", "statusBar.foreground", 4.5),
   ("terminal.background", "terminal.foreground", 7),
   ("button.background", "button.foreground", 4.5),
   ("input.background", "input.foreground", 4.5),
   ("dropdown.background", "dropdown.foreground", 4.5),
   ("list.activeSelectionBackground", "list.activeSelectionForeground", 4.5)]

/-- The foreground keys of the contrast-pair table. -/
def foreground_keys : List String :=
  contrast_pairs.map (fun p => p.2.1)

/-- The loop of `AIEnhancer._adjust_for_contrast` over the remaining
adjustments: at each step try `+adjustment` then `-adjustment`, return
the first candidate meeting the target; exhausted means the original
foreground. `none` models a raised exception (unreachable for valid
input, proved below). -/
noncomputable def adjust_loop (bg fg : String) (target : ℝ) : List Int → Option String
  | [] => some fg
  | adj :: rest =>
    match adjust_brightness fg adj with
    | none => none
    | some brighter =>
      match calculate_contrast_ratio bg brighter with
      | none => none
      | some rb =>
        if target ≤ rb then some brighter
        else
          match adjust_brightness fg (-adj) with
          | none => none
          | some darker =>
            match calculate_contrast_ratio bg darker with
            | none => none
            | some rd =>
              if target ≤ rd then some darker
              else adjust_loop bg fg target rest

/-- `AIEnhancer._adjust_for_contrast`: `for adjustment in range(10, 100, 10)`. -/
noncomputable def _adjust_for_contrast (bg fg : String) (target : ℝ) : Option String :=
  adjust_loop bg fg target [10, 20, 30, 40, 50, 60, 70, 80, 90]

/-- One iteration of the `_check_and_fix_contrast` pair loop: reads the
two colors from the original map, writes a repaired foreground into the
accumulator. -/
noncomputable def fix_pair (colors : List (String × String))
    (acc : List (String × String)) (p : String × String × ℚ) :
    Option (List (String × String)) :=
  match dlookup colors p.1, dlookup colors p.2.1 with
  | some bg, some fg =>
    if validate_hex_color bg && validate_hex_color fg then
      match calculate_contrast_ratio bg fg with
      | none => none
      | some ratio =>
        if ratio < (p.2.2 : ℝ) then
          match _adjust_for_contrast bg fg (p.2.2 : ℝ) with
          | none => none
          | some fixed_fg =>
            if !fixed_fg.isEmpty && fixed_fg ≠ fg then some (dset acc p.2.1 fixed_fg)
            else some acc
        else some acc
    else some acc
  | _, _ => some acc

noncomputable def check_and_fix_loop (colors : List (String × String)) :
    List (String × String × ℚ) → List (String × String) → Option (List (String × String))
  | [], acc => some acc
  | p :: rest, acc =>
    match fix_pair colors acc p with
    | some acc' => check_and_fix_loop colors rest acc'
    | none => none

/-- `AIEnhancer._check_and_fix_contrast`: start from a copy of the
input map and process the fixed pair table in order. -/
noncomputable def _check_and_fix_contrast (colors : List (String × String)) :
    Option (List (String × String)) :=
  check_and_fix_loop colors contrast_pairs colors

/-- The candidate foregrounds scanned by `_adjust_for_contrast`, in
scan order: brighter before darker at each step, steps 10 to 90. -/
def repair_candidates (fg : String) : List String :=
  [(10 : Int), 20, 30, 40, 50, 60, 70, 80, 90].flatMap fun a =>
    (adjust_brightness fg a).toList ++ (adjust_brightness fg (-a)).toList

/-- Whether a candidate meets the contrast target against the fixed
background. -/
noncomputable def meets (bg : String) (target : ℝ) (c : String) : Bool :=
  match calculate_contrast_ratio bg c with
  | some rc => decide (target ≤ rc)
  | none => false

/-- The repair result the specification describes: the first scanned
candidate meeting the target against the unchanged background, the
original foreground when none does. -/
noncomputable def repaired_fg (bg fg : String) (target : ℝ) : String :=
  ((repair_candidates fg).find? (meets bg target)).getD fg

/-- The validity pattern claimed by the specification for `validateHex`:
`#` followed by exactly 6 or 8 hex digits, nothing else. -/
def validate_hex_spec (s : String) : Bool :=
  match s.data with
  | '#' :: t => (t.length == 6 || t.length == 8) && t.all isHexChar
  | _ => false

/-- `adjustBrightness` as worded by the specification: multiply each
channel by `1 + percent/100`, clamp to `[0, 255]`, round toward the
nearest integer, re-encode. -/
def adjust_brightness_spec (s : String) (percent : Int) : Option String :=
  (hex_to_rgb s).map fun rgb =>
    let factor : ℚ := 1 + (percent : ℚ) / 100
    rgb_to_hex (round (min 255 (max 0 ((rgb.1 : ℚ) * factor)))).toNat
      (round (min 255 (max 0 ((rgb.2.1 : ℚ) * factor)))).toNat
      (round (min 255 (max 0 ((rgb.2.2 : ℚ) * factor)))).toNat

/-- The typing condition on one token entry under which the per-token
checks reach no raising operation. -/
def token_input_ok (t : Val) : Bool :=
  match t with
  | .dict tk =>
    (match dlookup tk "scope" with
     | some (.list xs) =>
       xs.all (fun x => match x with | .str _ => true | _ => false)
     | _ => true) &&
    (match dlookup tk "settings" with
     | some (.dict sd) =>
       (match dlookup sd "foreground" with
        | some (.str _) => true
        | some _ => false
        | none => true)
     | _ => true)
  | _ => true

/-- The typing conditions on the extracted theme data under which
`validate_with_errors` reaches no raising operation. -/
def theme_data_input_ok (td : List (String × Val)) : Bool :=
  (match dlookup td "name" with
   | some (.str _) => true
   | some _ => false
   | none => true) &&
  (match dlookup td "colors" with
   | some (.dict _) => true
   | some _ => false
   | none => true) &&
  (match dlookup td "token_colors" with
   | some (.list ts) => ts.all token_input_ok
   | some (.str _) => true
   | some (.dict _) => true
   | some _ => false
   | none => true) &&
  (match dlookup td "version" with
   | some (.str _) => true
   | some _ => false
   | none => true) &&
  (match dlookup td "author" with
   | some (.dict a) =>
     (match dlookup a "email" with
      | some em =>
        (if pyTruthy em then
          (match em with | .str _ => true | _ => false)
         else true)
      | none => true)
   | _ => true)

def validate_input_ok (theme_def : Val) : Bool :=
  match theme_def with
  | .dict defKvs =>
    (match (if dmem defKvs "theme" then
        (match dlookup defKvs "theme" with
         | some (.dict td) => some td
         | _ => none)
      else some defKvs) with
     | none => false
     | some td => theme_data_input_ok td)
  | _ => false

/-- A char list that, when it starts with `#`, carries only hex digits
after it. -/
def hashTailHex (cs : List Char) : Bool :=
  match cs with
  | '#' :: tail => tail.all isHexChar
  | _ => true

/-- A value that is not a `#`-prefixed string with non-hex digits. -/
def hash_value_ok (v : Val) : Bool :=
  match v with
  | .str s => hashTailHex s.data
  | _ => true

/-- Condition for the color-repair validity invariant: every string
value that starts with `#` carries only hex digits after it (the
`#`-prefixed branch of `_fix_colors` never checks its digits). -/
def hash_values_hex (m : List (String × Val)) : Bool :=
  m.all fun kv => hash_value_ok kv.2

/-- Shape of the color values present after one pass of `_fix_colors`:
a `#`-prefixed string whose tail has length 6, 7 (only via the bare-hex
branch matching a trailing newline) or 8. Proof-infrastructure invariant
for the repair-iteration analysis. -/
def tail678 (v : Val) : Prop :=
  ∃ s : String, v = Val.str s ∧ s.data.head? = some '#' ∧
    (s.data.tail.length = 6 ∨ s.data.tail.length = 7 ∨ s.data.tail.length = 8)

/-- Shape after two passes: the length-7 tails have been dropped. -/
def tail68 (v : Val) : Prop :=
  ∃ s : String, v = Val.str s ∧ s.data.head? = some '#' ∧
    (s.data.tail.length = 6 ∨ s.data.tail.length = 8)

/-- Shape after three passes: additionally stable under `str.upper`. -/
def tail68up (v : Val) : Prop :=
  ∃ s : String, v = Val.str s ∧ s.data.head? = some '#' ∧
    (s.data.tail.length = 6 ∨ s.data.tail.length = 8) ∧
    s.data.map upChar = s.data

/-- Invariant of a colors dict between `_fix_colors` passes: every
value satisfies `V`, the keys are distinct (it is a Python dict) and
the required color keys are present. -/
def colorsShape (V : Val → Prop) (m : List (String × Val)) : Prop :=
  (∀ kv ∈ m, V kv.2) ∧ (m.map Prod.fst).Nodup ∧
    (∀ k ∈ REQUIRED_COLOR_KEYS, dmem m k = true)

/-- Every token of the list is a fixpoint of the per-token repair. -/
def tokensStable (ts : List Val) : Prop := ∀ u ∈ ts, fix_token u = some u

/-- Invariant of a theme-data dict between `fix_theme` passes: the four
defaulted fields are present, `colors` is a dict of shape `V`, and a
`token_colors` entry, when present, is a list of stable tokens. -/
def tdShape (V : Val → Prop) (td : List (String × Val)) : Prop :=
  dmem td "name" = true ∧ dmem td "display_name" = true ∧
    dmem td "description" = true ∧ dmem td "version" = true ∧
    (∃ c, dlookup td "colors" = some (Val.dict c) ∧ colorsShape V c) ∧
    (∀ tv, dlookup td "token_colors" = some tv →
      ∃ ts, tv = Val.list ts ∧ tokensStable ts)

/-- The result shape of `fix_theme`: a dict whose `theme` entry is a
theme-data dict satisfying `P`. -/
def themeWrap (P : List (String × Val) → Prop) (v : Val) : Prop :=
  ∃ kvs td, v = Val.dict kvs ∧ dlookup kvs "theme" = some (Val.dict td) ∧ P td

/-- Extract `theme.colors["editor.background"]` from a theme value (for
exhibiting concrete differences between repair iterates). -/
def themeEBg (v : Val) : Option String :=
  match v with
  | .dict kvs =>
    match dlookup kvs "theme" with
    | some (.dict td) =>
      match dlookup td "colors" with
      | some (.dict c) =>
        match dlookup c "editor.background" with
        | some (.str s) => some s
        | _ => none
      | _ => none
    | _ => none
  | _ => none

end ThemeGen

namespace ThemeGen

theorem matchHexN_iff (cs : List Char) (n : Nat) :
    matchHexN cs n = true ↔
      ∃ t rest, cs = t ++ rest ∧ t.length = n ∧ t.all isHexChar = true ∧
        (rest = [] ∨ rest = ['\n']) := by
  unfold matchHexN pyLineEnd
  constructor
  · intro h
    simp only [Bool.and_eq_true, beq_iff_eq, Bool.or_eq_true, List.isEmpty_iff] at h
    obtain ⟨⟨hlen, hall⟩, hend⟩ := h
    exact ⟨cs.take n, cs.drop n, (List.take_append_drop n cs).symm, hlen, hall, hend⟩
  · rintro ⟨t, rest, rfl, hlen, hall, hrest⟩
    have htake : (t ++ rest).take n = t := by
      rw [← hlen]; exact List.take_left t rest
    have hdrop : (t ++ rest).drop n = rest := by
      rw [← hlen]; exact List.drop_left t rest
    simp only [htake, hdrop, Bool.and_eq_true, beq_iff_eq, Bool.or_eq_true, List.isEmpty_iff]
    exact ⟨⟨hlen, hall⟩, hrest⟩

end ThemeGen

namespace ThemeGen

theorem validate_hex_color_iff (s : String) :
    validate_hex_color s = true ↔
      ∃ t rest, s.data = '#' :: (t ++ rest) ∧ (t.length = 6 ∨ t.length = 8) ∧
        t.all isHexChar = true ∧ (rest = [] ∨ rest = ['\n']) := by
  have hval : validate_hex_color s =
      (match s.data with
       | '#' :: rest => matchHexN rest 6 || matchHexN rest 8
       | _ => false) := rfl
  rcases hd : s.data with _ | ⟨c, cs⟩
  · rw [hval, hd]
    simp
  · rw [hval, hd]
    by_cases hc : c = '#'
    · subst hc
      have hred : (match '#' :: cs with
          | '#' :: rest => matchHexN rest 6 || matchHexN rest 8
          | _ => false) = (matchHexN cs 6 || matchHexN cs 8) := rfl
      rw [hred]
      simp only [Bool.or_eq_true, matchHexN_iff]
      constructor
      · rintro (⟨t, rest, rfl, hlen, hall, hrest⟩ | ⟨t, rest, rfl, hlen, hall, hrest⟩)
        · exact ⟨t, rest, rfl, Or.inl hlen, hall, hrest⟩
        · exact ⟨t, rest, rfl, Or.inr hlen, hall, hrest⟩
      · rintro ⟨t, rest, heq, hlen | hlen, hall, hrest⟩
        · exact Or.inl ⟨t, rest, by injection heq, hlen, hall, hrest⟩
        · exact Or.inr ⟨t, rest, by injection heq, hlen, hall, hrest⟩
    · constructor
      · intro h
        exfalso
        revert h
        rcases cs with _ | ⟨c2, cs2⟩ <;> simp [hc]
      · rintro ⟨t, rest, heq, _, _, _⟩
        exfalso
        exact hc (by injection heq)

end ThemeGen

namespace ThemeGen

theorem char_le_iff_toNat (a b : Char) : a ≤ b ↔ a.toNat ≤ b.toNat := Iff.rfl

theorem validate_hex_spec_iff (s : String) :
    validate_hex_spec s = true ↔
      ∃ t, s.data = '#' :: t ∧ (t.length = 6 ∨ t.length = 8) ∧ t.all isHexChar = true := by
  have hval : validate_hex_spec s =
      (match s.data with
       | '#' :: t => (t.length == 6 || t.length == 8) && t.all isHexChar
       | _ => false) := rfl
  rcases hd : s.data with _ | ⟨c, cs⟩
  · rw [hval, hd]
    simp
  · rw [hval, hd]
    by_cases hc : c = '#'
    · subst hc
      have hred : (match '#' :: cs with
          | '#' :: t => (t.length == 6 || t.length == 8) && t.all isHexChar
          | _ => false) = ((cs.length == 6 || cs.length == 8) && cs.all isHexChar) := rfl
      rw [hred]
      simp only [Bool.and_eq_true, Bool.or_eq_true, beq_iff_eq]
      constructor
      · rintro ⟨hlen, hall⟩
        exact ⟨cs, rfl, hlen, hall⟩
      · rintro ⟨t, heq, hlen, hall⟩
        obtain rfl : cs = t := by injection heq
        exact ⟨hlen, hall⟩
    · constructor
      · intro h
        exfalso
        revert h
        rcases cs with _ | ⟨c2, cs2⟩ <;> simp [hc]
      · rintro ⟨t, heq, _, _⟩
        exact absurd (by injection heq) hc

/-- C8 counterexample: the claim says `validateHex` accepts exactly the
strings matching `^#[0-9A-Fa-f]{6}$` or `^#[0-9A-Fa-f]{8}$`, but the
Python `$` also matches just before a final newline, so the code
accepts `"#123456\n"`, which the anchored pattern does not describe. -/
theorem claim8_counterexample :
    validate_hex_color "#123456\n" = true ∧ validate_hex_spec "#123456\n" = false := by
  constructor <;> rfl

/-- C8 (amended): `validateHex(s)` is true iff `s` is `#` followed by
exactly 6 or 8 hex digits, or such a string followed by one final
newline (Python `re` `$` semantics); all other strings are rejected and
no normalization is performed. -/
theorem claim8_validate_hex_characterization (s : String) :
    validate_hex_color s = true ↔
      (validate_hex_spec s = true ∨
        (s.data.getLast? = some '\n' ∧ validate_hex_spec ⟨s.data.dropLast⟩ = true)) := by
  rw [validate_hex_color_iff]
  constructor
  · rintro ⟨t, rest, heq, hlen, hall, hrest | hrest⟩
    · subst hrest
      left
      rw [validate_hex_spec_iff]
      exact ⟨t, by simpa using heq, hlen, hall⟩
    · subst hrest
      right
      have heq' : s.data = ('#' :: t) ++ ['\n'] := by simpa using heq
      constructor
      · rw [heq', List.getLast?_concat]
      · rw [validate_hex_spec_iff]
        refine ⟨t, ?_, hlen, hall⟩
        show (s.data.dropLast) = '#' :: t
        rw [heq', List.dropLast_concat]
  · rintro (h | ⟨hlast, h⟩)
    · rw [validate_hex_spec_iff] at h
      obtain ⟨t, heq, hlen, hall⟩ := h
      exact ⟨t, [], by simpa using heq, hlen, hall, Or.inl rfl⟩
    · rw [validate_hex_spec_iff] at h
      obtain ⟨t, heq, hlen, hall⟩ := h
      have hdrop : s.data.dropLast = '#' :: t := heq
      have hne : s.data ≠ [] := by
        intro hnil
        rw [hnil] at hlast
        simp at hlast
      have hs : s.data = s.data.dropLast ++ [s.data.getLast hne] := (List.dropLast_append_getLast hne).symm
      have hlast' : s.data.getLast hne = '\n' := by
        have := List.getLast?_eq_getLast s.data hne
        rw [hlast] at this
        exact (Option.some_injective _ this.symm)
      refine ⟨t, ['\n'], ?_, hlen, hall, Or.inr rfl⟩
      rw [hs, hdrop, hlast']
      simp

end ThemeGen

namespace ThemeGen

theorem hexDigitVal_le (c : Char) (d : Nat) (h : hexDigitVal c = some d) : d ≤ 15 := by
  have h0 : '0'.toNat = 48 := rfl
  have h9 : '9'.toNat = 57 := rfl
  have hA : 'A'.toNat = 65 := rfl
  have hF : 'F'.toNat = 70 := rfl
  have ha : 'a'.toNat = 97 := rfl
  have hf : 'f'.toNat = 102 := rfl
  unfold hexDigitVal at h
  split_ifs at h with h1 h2 h3
  · obtain ⟨hr, hl⟩ := h1
    rw [char_le_iff_toNat] at hl hr
    injection h with h
    omega
  · obtain ⟨hr, hl⟩ := h2
    rw [char_le_iff_toNat] at hl hr
    injection h with h
    omega
  · obtain ⟨hr, hl⟩ := h3
    rw [char_le_iff_toNat] at hl hr
    injection h with h
    omega

theorem parseHexNat_le_255 (cs : List Char) (h2 : cs.length ≤ 2) (n : Nat)
    (h : parseHexNat cs = some n) : n ≤ 255 := by
  rcases cs with _ | ⟨a, cs⟩
  · simp [parseHexNat] at h
  rcases cs with _ | ⟨b, cs⟩
  · have hform : parseHexNat [a] =
        (match hexDigitVal a with
         | some d => some (16 * 0 + d)
         | none => none) := rfl
    rw [hform] at h
    cases hda : hexDigitVal a with
    | none => rw [hda] at h; exact absurd h (by simp)
    | some d =>
      rw [hda] at h
      injection h with h
      have := hexDigitVal_le a d hda
      omega
  rcases cs with _ | ⟨c3, cs⟩
  · have hform : parseHexNat [a, b] =
        (match hexDigitVal a with
         | some d =>
           (match hexDigitVal b with
            | some e => some (16 * (16 * 0 + d) + e)
            | none => none)
         | none => none) := rfl
    rw [hform] at h
    cases hda : hexDigitVal a with
    | none => rw [hda] at h; exact absurd h (by simp)
    | some d =>
      rw [hda] at h
      cases hdb : hexDigitVal b with
      | none => rw [hdb] at h; exact absurd h (by simp)
      | some e =>
        rw [hdb] at h
        injection h with h
        have h1 := hexDigitVal_le a d hda
        have h2 := hexDigitVal_le b e hdb
        omega
  · simp at h2

theorem hex_to_rgb_le (s : String) (r g b : Nat) (h : hex_to_rgb s = some (r, g, b)) :
    r ≤ 255 ∧ g ≤ 255 ∧ b ≤ 255 := by
  simp only [hex_to_rgb, Option.pure_def, Option.bind_eq_bind, Option.bind_eq_some,
    Option.some.injEq] at h
  obtain ⟨r', hr, g', hg, b', hb, heq⟩ := h
  injection heq with h1 hrest
  injection hrest with h2 h3
  subst h1
  subst h2
  subst h3
  refine ⟨?_, ?_, ?_⟩
  · exact parseHexNat_le_255 _ (by rw [List.length_take]; omega) _ hr
  · exact parseHexNat_le_255 _ (by rw [List.length_take]; omega) _ hg
  · exact parseHexNat_le_255 _ (by rw [List.length_take]; omega) _ hb

end ThemeGen

namespace ThemeGen

theorem clampChannel_of_nonneg (i : Int) (h : 0 ≤ i) :
    clampChannel i = (min 255 i).toNat := by
  unfold clampChannel
  rw [max_eq_right (le_min (by norm_num) h)]

theorem tdiv_eq_floor_div (n : ℤ) (d : ℕ) (hn : 0 ≤ n) :
    Int.tdiv n d = ⌊(↑n / ↑d : ℚ)⌋ := by
  rw [Rat.floor_intCast_div_natCast, Int.tdiv_eq_ediv hn (by positivity)]

set_option maxRecDepth 40000 in
theorem bitlen_le_255 (c : Nat) (hc : c ≤ 255) : bitlen c ≤ 53 := by
  have hall : ∀ m ∈ List.range 256, bitlen m ≤ 53 := by decide
  exact hall c (List.mem_range.mpr (by omega))

theorem fround_id (m e : Int) (h : bitlen m.natAbs ≤ 53) : fround (m, e) = (m, e) := by
  show (if bitlen m.natAbs ≤ 53 then (m, e) else _) = (m, e)
  rw [if_pos h]

theorem fround_nonneg (m e : Int) (hm : 0 ≤ m) : 0 ≤ (fround (m, e)).1 := by
  by_cases h : bitlen m.natAbs ≤ 53
  · rw [fround_id m e h]
    exact hm
  · show (0 : Int) ≤ ((if bitlen m.natAbs ≤ 53 then (m, e) else _ : Int × Int)).1
    rw [if_neg h]
    have hneg : ¬ m < 0 := not_lt.mpr hm
    simp only [if_neg hneg]
    positivity

set_option maxRecDepth 40000 in
theorem float_factor_nonneg (p : Int) (h1 : -100 ≤ p) (h2 : p ≤ 100) :
    0 ≤ (float_factor p).1 := by
  have hall : ∀ k ∈ List.range 201, 0 ≤ (float_factor ((k : Int) - 100)).1 := by decide
  have hmem : (p + 100).toNat ∈ List.range 201 := List.mem_range.mpr (by omega)
  have hx := hall _ hmem
  have hk : (((p + 100).toNat : Int)) - 100 = p := by omega
  rw [hk] at hx
  exact hx

theorem float_scaled_nonneg (c : Nat) (p : Int) (h1 : -100 ≤ p) (h2 : p ≤ 100) :
    0 ≤ (float_scaled c p).1 :=
  fround_nonneg _ _ (mul_nonneg (by positivity) (float_factor_nonneg p h1 h2))

theorem ftrunc_eq_floor (m e : Int) (hm : 0 ≤ m) :
    ftrunc (m, e) = ⌊(m : ℚ) * (2 : ℚ) ^ e⌋ := by
  by_cases he : 0 ≤ e
  · show (if 0 ≤ e then m * 2 ^ e.toNat else Int.tdiv m (2 ^ (-e).toNat)) = _
    rw [if_pos he]
    lift e to ℕ using he with k
    rw [zpow_natCast, Int.toNat_natCast]
    rw [show (m : ℚ) * 2 ^ k = ((m * 2 ^ k : ℤ) : ℚ) by push_cast; ring]
    rw [Int.floor_intCast]
  · show (if 0 ≤ e then m * 2 ^ e.toNat else Int.tdiv m (2 ^ (-e).toNat)) = _
    rw [if_neg he]
    push_neg at he
    set k := (-e).toNat with hkdef
    have hek : e = -(k : ℤ) := by
      rw [hkdef]
      omega
    have hpow : ((2 : ℤ) ^ k) = (((2 ^ k : ℕ) : ℤ)) := by push_cast; ring
    rw [hpow, tdiv_eq_floor_div m (2 ^ k) hm, hek]
    congr 1
    rw [zpow_neg, zpow_natCast, div_eq_mul_inv]
    congr 1
    push_cast
    ring

/-- C6 (amended): `adjustBrightness` computes `factor = 1 + percent/100`
in IEEE-754 binary64 and TRUNCATES the binary64 product
`channel * factor` toward zero with `int()` — for `percent ≥ -100` the
product is nonnegative, so `int()` is the floor of the float product,
not rounding to the nearest integer — then clamps to `[0, 255]` and
re-encodes as lowercase hex; `percent = 0` re-encodes the parsed
channels unchanged (identity only up to case normalization and the
dropped alpha byte). -/
theorem claim6_truncation (s : String) (r g b : Nat) (hp : hex_to_rgb s = some (r, g, b))
    (p : Int) (hlo : -100 ≤ p) (hhi : p ≤ 100) :
    adjust_brightness s p = some (rgb_to_hex
      (min 255 ⌊((float_scaled r p).1 : ℚ) * (2 : ℚ) ^ (float_scaled r p).2⌋).toNat
      (min 255 ⌊((float_scaled g p).1 : ℚ) * (2 : ℚ) ^ (float_scaled g p).2⌋).toNat
      (min 255 ⌊((float_scaled b p).1 : ℚ) * (2 : ℚ) ^ (float_scaled b p).2⌋).toNat) ∧
    adjust_brightness s 0 = some (rgb_to_hex r g b) := by
  have key : ∀ c : Nat, clampChannel (ftrunc (float_scaled c p)) =
      (min 255 ⌊((float_scaled c p).1 : ℚ) * (2 : ℚ) ^ (float_scaled c p).2⌋).toNat := by
    intro c
    have hm : 0 ≤ (float_scaled c p).1 := float_scaled_nonneg c p hlo hhi
    have htr : ftrunc (float_scaled c p) =
        ⌊((float_scaled c p).1 : ℚ) * (2 : ℚ) ^ (float_scaled c p).2⌋ := by
      rw [show float_scaled c p = ((float_scaled c p).1, (float_scaled c p).2) from rfl] at hm ⊢
      exact ftrunc_eq_floor _ _ hm
    have hfl : 0 ≤ ⌊((float_scaled c p).1 : ℚ) * (2 : ℚ) ^ (float_scaled c p).2⌋ := by
      apply Int.floor_nonneg.mpr
      have h2 : (0 : ℚ) < (2 : ℚ) ^ (float_scaled c p).2 := by positivity
      have hmq : (0 : ℚ) ≤ ((float_scaled c p).1 : ℚ) := by exact_mod_cast hm
      positivity
    rw [htr, clampChannel_of_nonneg _ hfl]
  have key0 : ∀ c : Nat, c ≤ 255 → clampChannel (ftrunc (float_scaled c 0)) = c := by
    intro c hc
    have hff : float_factor 0 = (1, 0) := rfl
    have hsc : float_scaled c 0 = ((c : Int), 0) := by
      show fround ((c : Int) * (float_factor 0).1, (float_factor 0).2) = _
      rw [hff]
      rw [show ((c : Int) * ((1 : Int), (0 : Int)).1, ((1 : Int), (0 : Int)).2) =
        ((c : Int) * 1, (0 : Int)) from rfl, mul_one]
      exact fround_id _ _ (by simpa using bitlen_le_255 c hc)
    rw [hsc]
    have ht : ftrunc ((c : Int), 0) = (c : Int) := by
      show (if (0 : Int) ≤ 0 then (c : Int) * 2 ^ (0 : Int).toNat
        else Int.tdiv (c : Int) (2 ^ (-(0 : Int)).toNat)) = _
      rw [if_pos le_rfl]
      norm_num
    rw [ht]
    unfold clampChannel
    rw [min_eq_right (by exact_mod_cast hc), max_eq_right (by positivity)]
    exact Int.toNat_natCast c
  obtain ⟨hr, hg, hb⟩ := hex_to_rgb_le s r g b hp
  constructor
  · show (hex_to_rgb s).map _ = _
    rw [hp]
    simp only [Option.map_some']
    rw [key r, key g, key b]
  · show (hex_to_rgb s).map _ = _
    rw [hp]
    simp only [Option.map_some']
    rw [key0 r hr, key0 g hg, key0 b hb]

/-- C6 witness: the amended theorem applied at `"#0a141e"` (channels
10, 20, 30) and `percent = 25`. -/
theorem claim6_truncation_witness :
    hex_to_rgb "#0a141e" = some (10, 20, 30) ∧
      (-100 : Int) ≤ 25 ∧ (25 : Int) ≤ 100 ∧
      adjust_brightness "#0a141e" 25 = some (rgb_to_hex
        (min 255 ⌊((float_scaled 10 25).1 : ℚ) * (2 : ℚ) ^ (float_scaled 10 25).2⌋).toNat
        (min 255 ⌊((float_scaled 20 25).1 : ℚ) * (2 : ℚ) ^ (float_scaled 20 25).2⌋).toNat
        (min 255 ⌊((float_scaled 30 25).1 : ℚ) * (2 : ℚ) ^ (float_scaled 30 25).2⌋).toNat) ∧
      adjust_brightness "#0a141e" 0 = some (rgb_to_hex 10 20 30) := by
  have h1 : hex_to_rgb "#0a141e" = some (10, 20, 30) := by decide
  have h2 := claim6_truncation "#0a141e" 10 20 30 h1 25 (by decide) (by decide)
  exact ⟨h1, by decide, by decide, h2.1, h2.2⟩

end ThemeGen

namespace ThemeGen

set_option maxRecDepth 40000 in
/-- C6 counterexample: at `"#030303"` (channel 3) and `percent = 90`
the binary64 scaled channel is `5.700000000000001` (the nearest float
to the exact `5.7`); the code truncates (`int()`) to 5 and returns
`"#050505"`, while rounding toward the nearest integer, as the claim
states, would give 6 and `"#060606"`. -/
theorem claim6_counterexample :
    adjust_brightness "#030303" 90 = some "#050505" ∧
      adjust_brightness_spec "#030303" 90 = some "#060606" ∧
      ("#050505" : String) ≠ "#060606" := by
  refine ⟨by decide, ?_, by decide⟩
  have h1 : hex_to_rgb "#030303" = some (3, 3, 3) := by decide
  show (hex_to_rgb "#030303").map _ = _
  rw [h1]
  simp only [Option.map_some']
  have hch : (round ((((3 : ℕ)) : ℚ) * (1 + ((90 : ℤ) : ℚ) / 100)) : ℤ) = 6 := by
    have hq : (((3 : ℕ)) : ℚ) * (1 + ((90 : ℤ) : ℚ) / 100) = 57 / 10 := by
      push_cast
      norm_num
    rw [hq, round_eq]
    norm_num
  have hcl : min 255 (max 0 ((((3 : ℕ)) : ℚ) * (1 + ((90 : ℤ) : ℚ) / 100))) =
      (((3 : ℕ)) : ℚ) * (1 + ((90 : ℤ) : ℚ) / 100) := by
    have hq : (((3 : ℕ)) : ℚ) * (1 + ((90 : ℤ) : ℚ) / 100) = 57 / 10 := by
      push_cast
      norm_num
    rw [hq, max_eq_right (by norm_num), min_eq_right (by norm_num)]
  show some (rgb_to_hex
      (round (min 255 (max 0 ((((3 : ℕ)) : ℚ) * (1 + ((90 : ℤ) : ℚ) / 100))))).toNat
      (round (min 255 (max 0 ((((3 : ℕ)) : ℚ) * (1 + ((90 : ℤ) : ℚ) / 100))))).toNat
      (round (min 255 (max 0 ((((3 : ℕ)) : ℚ) * (1 + ((90 : ℤ) : ℚ) / 100))))).toNat) =
    some "#060606"
  rw [hcl, hch]
  rfl

end ThemeGen

namespace ThemeGen

/-- C4 counterexample: on `{"theme": {"name": "Bad Name!", "colors": {}}}`
the validator reports exactly TWO errors — the name-format violation and
ONE aggregated error naming all missing required colors — not the 1 + 8
separate violations the claim states. -/
theorem claim4_counterexample :
    validate_with_errors (Val.dict [("theme",
        Val.dict [("name", Val.str "Bad Name!"), ("colors", Val.dict [])])]) =
      Except.ok (false,
        ["Invalid theme name format: Bad Name!. Use only lowercase letters, numbers, hyphens, and underscores.",
         "Missing required colors: editor.background, editor.foreground, activityBar.background, activityBar.foreground, sideBar.background, sideBar.foreground, statusBar.background, statusBar.foreground"]) ∧
      (2 : Nat) ≠ 9 := by
  exact ⟨rfl, by decide⟩

/-- C4 (amended): missing required color keys are aggregated into a
single error string listing them all; on the claim's input, `validate`
returns `valid = False` with exactly the name-format error and one
missing-colors error that lists all 8 `REQUIRED_COLOR_KEYS`. -/
theorem claim4_aggregated_missing_colors :
    validate_with_errors (Val.dict [("theme",
        Val.dict [("name", Val.str "Bad Name!"), ("colors", Val.dict [])])]) =
      Except.ok (false,
        ["Invalid theme name format: Bad Name!. Use only lowercase letters, numbers, hyphens, and underscores.",
         "Missing required colors: " ++ String.intercalate ", " REQUIRED_COLOR_KEYS]) := by
  rfl

/-- C3 counterexample: the claim says `validate` never raises on
structurally detectable malformed input such as a non-string `name`,
but `re.match` on the integer name `123` raises `TypeError`
(modelled as `Except.error`). -/
theorem claim3_counterexample :
    validate_with_errors (Val.dict [("name", Val.int 123), ("colors", Val.dict [])]) =
      Except.error "TypeError: re.match on non-string name" := by
  rfl

end ThemeGen

namespace ThemeGen

theorem except_bind_ok {α β : Type} (a : α) (f : α → Except String β) :
    (Except.ok a >>= f : Except String β) = f a := rfl

theorem name_format_errors_ok (td : List (String × Val))
    (h : (match dlookup td "name" with
          | some (.str _) => true
          | some _ => false
          | none => true) = true) :
    ∃ es, name_format_errors td = .ok es := by
  unfold name_format_errors
  cases hn : dlookup td "name" with
  | none => exact ⟨_, rfl⟩
  | some v =>
    rw [hn] at h
    cases v with
    | str s => exact ⟨_, rfl⟩
    | int n => exact absurd h Bool.false_ne_true
    | list xs => exact absurd h Bool.false_ne_true
    | dict kvs => exact absurd h Bool.false_ne_true
    | null => exact absurd h Bool.false_ne_true

theorem required_fields_ok (td : List (String × Val))
    (h : (match dlookup td "name" with
          | some (.str _) => true
          | some _ => false
          | none => true) = true) :
    ∃ es, _validate_required_fields td = .ok es := by
  obtain ⟨es, hes⟩ := name_format_errors_ok td h
  refine ⟨((if dmem td "name" then [] else ["Missing required field: name"]) ++
      (if dmem td "colors" then [] else ["Missing required field: colors"])) ++ es, ?_⟩
  unfold _validate_required_fields
  rw [hes, except_bind_ok]
  rfl

theorem colors_section_ok (td : List (String × Val))
    (h : (match dlookup td "colors" with
          | some (.dict _) => true
          | some _ => false
          | none => true) = true) :
    ∃ es, colors_section_errors td = .ok es := by
  unfold colors_section_errors
  cases hn : dlookup td "colors" with
  | none => exact ⟨_, rfl⟩
  | some v =>
    rw [hn] at h
    cases v with
    | dict c => exact ⟨_, rfl⟩
    | str s => exact absurd h Bool.false_ne_true
    | int n => exact absurd h Bool.false_ne_true
    | list xs => exact absurd h Bool.false_ne_true
    | null => exact absurd h Bool.false_ne_true

theorem scope_errors_ok (idx : Nat) (tk : List (String × Val))
    (h : (match dlookup tk "scope" with
          | some (.list xs) =>
            xs.all (fun x => match x with | .str _ => true | _ => false)
          | _ => true) = true) :
    ∃ es, scope_errors idx tk = .ok es := by
  unfold scope_errors
  cases hn : dlookup tk "scope" with
  | none => exact ⟨_, rfl⟩
  | some v =>
    rw [hn] at h
    cases v with
    | list xs =>
      have h' : xs.all (fun x => match x with | .str _ => true | _ => false) = true := h
      show ∃ es, (if xs.all (fun x => match x with | .str _ => true | _ => false) then
          (Except.ok [] : Except String (List String))
        else .error "TypeError: join on non-string scope entries") = .ok es
      rw [if_pos h']
      exact ⟨_, rfl⟩
    | str s => exact ⟨_, rfl⟩
    | int n => exact ⟨_, rfl⟩
    | dict kvs => exact ⟨_, rfl⟩
    | null => exact ⟨_, rfl⟩

theorem settings_errors_ok (idx : Nat) (tk : List (String × Val))
    (h : (match dlookup tk "settings" with
          | some (.dict sd) =>
            (match dlookup sd "foreground" with
             | some (.str _) => true
             | some _ => false
             | none => true)
          | _ => true) = true) :
    ∃ es, settings_errors idx tk = .ok es := by
  unfold settings_errors
  cases hn : dlookup tk "settings" with
  | none => exact ⟨_, rfl⟩
  | some v =>
    rw [hn] at h
    cases v with
    | dict sd =>
      have h' : (match dlookup sd "foreground" with
          | some (.str _) => true
          | some _ => false
          | none => true) = true := h
      show ∃ es, (match dlookup sd "foreground" with
        | none => (Except.ok [] : Except String (List String))
        | some (.str fg) =>
          .ok (if validate_hex_color fg then []
            else ["Invalid foreground color at index " ++ toString idx ++ ": " ++ fg])
        | some _ => .error "TypeError: re.match on non-string foreground") = .ok es
      cases hf : dlookup sd "foreground" with
      | none => exact ⟨_, rfl⟩
      | some fv =>
        rw [hf] at h'
        cases fv with
        | str fg => exact ⟨_, rfl⟩
        | int n => exact absurd h' Bool.false_ne_true
        | list xs => exact absurd h' Bool.false_ne_true
        | dict kvs => exact absurd h' Bool.false_ne_true
        | null => exact absurd h' Bool.false_ne_true
    | str s => exact ⟨_, rfl⟩
    | int n => exact ⟨_, rfl⟩
    | list xs => exact ⟨_, rfl⟩
    | null => exact ⟨_, rfl⟩

theorem token_errors_ok (idx : Nat) (t : Val) (h : token_input_ok t = true) :
    ∃ es, token_errors idx t = .ok es := by
  cases t with
  | dict tk =>
    have h' : ((match dlookup tk "scope" with
        | some (.list xs) =>
          xs.all (fun x => match x with | .str _ => true | _ => false)
        | _ => true) &&
      (match dlookup tk "settings" with
        | some (.dict sd) =>
          (match dlookup sd "foreground" with
           | some (.str _) => true
           | some _ => false
           | none => true)
        | _ => true)) = true := h
    rw [Bool.and_eq_true] at h'
    obtain ⟨h1, h2⟩ := h'
    obtain ⟨es1, he1⟩ := scope_errors_ok idx tk h1
    obtain ⟨es2, he2⟩ := settings_errors_ok idx tk h2
    refine ⟨es1 ++ es2, ?_⟩
    show (do
      let e1 ← scope_errors idx tk
      let e2 ← settings_errors idx tk
      return e1 ++ e2 : Except String (List String)) = _
    rw [he1, except_bind_ok, he2, except_bind_ok]
    rfl
  | str s => exact ⟨_, rfl⟩
  | int n => exact ⟨_, rfl⟩
  | list xs => exact ⟨_, rfl⟩
  | null => exact ⟨_, rfl⟩

theorem token_errors_loop_ok (ts : List Val) (h : ts.all token_input_ok = true) :
    ∀ idx, ∃ es, token_errors_loop idx ts = .ok es := by
  induction ts with
  | nil => intro idx; exact ⟨_, rfl⟩
  | cons t rest ih =>
    intro idx
    rw [List.all_cons, Bool.and_eq_true] at h
    obtain ⟨ht, hrest⟩ := h
    obtain ⟨e, he⟩ := token_errors_ok idx t ht
    obtain ⟨es, hes⟩ := ih hrest (idx + 1)
    refine ⟨e ++ es, ?_⟩
    show (do
      let e ← token_errors idx t
      let es ← token_errors_loop (idx + 1) rest
      return e ++ es : Except String (List String)) = _
    rw [he, except_bind_ok, hes, except_bind_ok]
    rfl

theorem token_section_ok (td : List (String × Val))
    (h : (match dlookup td "token_colors" with
          | some (.list ts) => ts.all token_input_ok
          | some (.str _) => true
          | some (.dict _) => true
          | some _ => false
          | none => true) = true) :
    ∃ es, token_section_errors td = .ok es := by
  unfold token_section_errors
  cases hn : dlookup td "token_colors" with
  | none => exact ⟨_, rfl⟩
  | some v =>
    rw [hn] at h
    cases v with
    | list ts =>
      have h' : ts.all token_input_ok = true := h
      obtain ⟨es, hes⟩ := token_errors_loop_ok ts h' 0
      exact ⟨es, hes⟩
    | str s => exact ⟨_, rfl⟩
    | dict kvs => exact ⟨_, rfl⟩
    | int n => exact absurd h Bool.false_ne_true
    | null => exact absurd h Bool.false_ne_true

theorem version_errors_ok (td : List (String × Val))
    (h : (match dlookup td "version" with
          | some (.str _) => true
          | some _ => false
          | none => true) = true) :
    ∃ es, version_errors td = .ok es := by
  unfold version_errors
  cases hn : dlookup td "version" with
  | none => exact ⟨_, rfl⟩
  | some v =>
    rw [hn] at h
    cases v with
    | str s => exact ⟨_, rfl⟩
    | int n => exact absurd h Bool.false_ne_true
    | list xs => exact absurd h Bool.false_ne_true
    | dict kvs => exact absurd h Bool.false_ne_true
    | null => exact absurd h Bool.false_ne_true

theorem author_errors_ok (td : List (String × Val))
    (h : (match dlookup td "author" with
          | some (.dict a) =>
            (match dlookup a "email" with
             | some em =>
               (if pyTruthy em then
                 (match em with | .str _ => true | _ => false)
                else true)
             | none => true)
          | _ => true) = true) :
    ∃ es, author_errors td = .ok es := by
  unfold author_errors
  cases hn : dlookup td "author" with
  | none => exact ⟨_, rfl⟩
  | some v =>
    rw [hn] at h
    cases v with
    | dict a =>
      have h' : (match dlookup a "email" with
          | some em =>
            (if pyTruthy em then
              (match em with | .str _ => true | _ => false)
             else true)
          | none => true) = true := h
      show ∃ es, (match dlookup a "email" with
        | some em =>
          (if pyTruthy em then
            (match em with
             | Val.str e => Except.ok (if matchEmailPattern e.data then []
                 else ["Invalid email format: " ++ e])
             | _ => .error "TypeError: re.match on non-string email")
           else (.ok [] : Except String (List String)))
        | none => .ok []) = .ok es
      cases he : dlookup a "email" with
      | none => exact ⟨_, rfl⟩
      | some em =>
        rw [he] at h'
        cases em with
        | str e =>
          show ∃ es, (if pyTruthy (Val.str e) then
              Except.ok (if matchEmailPattern e.data then []
                else ["Invalid email format: " ++ e])
             else (Except.ok [] : Except String (List String))) = .ok es
          cases hb : pyTruthy (Val.str e) with
          | false => exact ⟨_, rfl⟩
          | true => exact ⟨_, rfl⟩
        | int n =>
          show ∃ es, (if pyTruthy (Val.int n) then
              (Except.error "TypeError: re.match on non-string email" :
                Except String (List String))
             else .ok []) = .ok es
          have h3 : (if pyTruthy (Val.int n) then false else true) = true := h'
          cases hb : pyTruthy (Val.int n) with
          | false => exact ⟨_, rfl⟩
          | true =>
            rw [hb] at h3
            exact absurd h3 Bool.false_ne_true
        | list xs =>
          show ∃ es, (if pyTruthy (Val.list xs) then
              (Except.error "TypeError: re.match on non-string email" :
                Except String (List String))
             else .ok []) = .ok es
          have h3 : (if pyTruthy (Val.list xs) then false else true) = true := h'
          cases hb : pyTruthy (Val.list xs) with
          | false => exact ⟨_, rfl⟩
          | true =>
            rw [hb] at h3
            exact absurd h3 Bool.false_ne_true
        | dict kvs =>
          show ∃ es, (if pyTruthy (Val.dict kvs) then
              (Except.error "TypeError: re.match on non-string email" :
                Except String (List String))
             else .ok []) = .ok es
          have h3 : (if pyTruthy (Val.dict kvs) then false else true) = true := h'
          cases hb : pyTruthy (Val.dict kvs) with
          | false => exact ⟨_, rfl⟩
          | true =>
            rw [hb] at h3
            exact absurd h3 Bool.false_ne_true
        | null =>
          show ∃ es, (if pyTruthy Val.null then
              (Except.error "TypeError: re.match on non-string email" :
                Except String (List String))
             else .ok []) = .ok es
          cases hb : pyTruthy Val.null with
          | false => exact ⟨_, rfl⟩
          | true => exact absurd hb (by decide)
    | str s => exact ⟨_, rfl⟩
    | int n => exact ⟨_, rfl⟩
    | list xs => exact ⟨_, rfl⟩
    | null => exact ⟨_, rfl⟩

theorem metadata_ok (td : List (String × Val))
    (hv : (match dlookup td "version" with
          | some (.str _) => true
          | some _ => false
          | none => true) = true)
    (ha : (match dlookup td "author" with
          | some (.dict a) =>
            (match dlookup a "email" with
             | some em =>
               (if pyTruthy em then
                 (match em with | .str _ => true | _ => false)
                else true)
             | none => true)
          | _ => true) = true) :
    ∃ es, _validate_metadata td = .ok es := by
  obtain ⟨e1, h1⟩ := version_errors_ok td hv
  obtain ⟨e2, h2⟩ := author_errors_ok td ha
  refine ⟨e1 ++ e2, ?_⟩
  unfold _validate_metadata
  rw [h1, except_bind_ok, h2, except_bind_ok]
  rfl

/-- C3 (amended): on inputs whose malformed parts are among those the
validator guards with `isinstance` checks (bad hex values, non-string
color values, non-dict tokens, non-list `token_colors`, missing keys,
bad formats), `validate` does not raise: it runs every rule group,
collects one error string per violated rule, and returns
`valid = (error count == 0)`. A non-string `name` or `version`, a
non-dict `colors`, a `len`-less `token_colors`, a non-string scope
entry, foreground, or truthy `author.email` instead raises `TypeError`
out of `validate` (see the counterexample). -/
theorem claim3_validate_no_raise (x : Val) (h : validate_input_ok x = true) :
    ∃ errs, validate_with_errors x = .ok (errs.isEmpty, errs) := by
  cases x with
  | str s => exact absurd h Bool.false_ne_true
  | int n => exact absurd h Bool.false_ne_true
  | list xs => exact absurd h Bool.false_ne_true
  | null => exact absurd h Bool.false_ne_true
  | dict defKvs =>
    have h' : (match (if dmem defKvs "theme" then
          (match dlookup defKvs "theme" with
           | some (.dict td) => some td
           | _ => none)
        else some defKvs) with
      | none => false
      | some td => theme_data_input_ok td) = true := h
    have hextract : ∃ td, extract_theme_data defKvs = .ok td ∧ theme_data_input_ok td = true := by
      unfold extract_theme_data
      cases hdm : dmem defKvs "theme" with
      | false =>
        rw [hdm] at h'
        exact ⟨defKvs, rfl, h'⟩
      | true =>
        rw [hdm] at h'
        cases hl : dlookup defKvs "theme" with
        | none =>
          rw [hl] at h'
          exact absurd h' Bool.false_ne_true
        | some v =>
          rw [hl] at h'
          cases v with
          | dict td => exact ⟨td, rfl, h'⟩
          | str s => exact absurd h' Bool.false_ne_true
          | int n => exact absurd h' Bool.false_ne_true
          | list xs => exact absurd h' Bool.false_ne_true
          | null => exact absurd h' Bool.false_ne_true
    obtain ⟨td, hex, hok⟩ := hextract
    have hok' : ((match dlookup td "name" with
          | some (.str _) => true
          | some _ => false
          | none => true) &&
        (match dlookup td "colors" with
          | some (.dict _) => true
          | some _ => false
          | none => true) &&
        (match dlookup td "token_colors" with
          | some (.list ts) => ts.all token_input_ok
          | some (.str _) => true
          | some (.dict _) => true
          | some _ => false
          | none => true) &&
        (match dlookup td "version" with
          | some (.str _) => true
          | some _ => false
          | none => true) &&
        (match dlookup td "author" with
          | some (.dict a) =>
            (match dlookup a "email" with
             | some em =>
               (if pyTruthy em then
                 (match em with | .str _ => true | _ => false)
                else true)
             | none => true)
          | _ => true)) = true := hok
    simp only [Bool.and_eq_true] at hok'
    obtain ⟨⟨⟨⟨hname, hcolors⟩, htok⟩, hver⟩, hauth⟩ := hok'
    obtain ⟨e1, h1⟩ := required_fields_ok td hname
    obtain ⟨e2, h2⟩ := colors_section_ok td hcolors
    obtain ⟨e3, h3⟩ := token_section_ok td htok
    obtain ⟨e4, h4⟩ := metadata_ok td hver hauth
    refine ⟨e1 ++ e2 ++ e3 ++ e4, ?_⟩
    show (do
      let td ← extract_theme_data defKvs
      let e1 ← _validate_required_fields td
      let e2 ← colors_section_errors td
      let e3 ← token_section_errors td
      let e4 ← _validate_metadata td
      let errs := e1 ++ e2 ++ e3 ++ e4
      return (errs.isEmpty, errs) : Except String (Bool × List String)) = _
    rw [hex, except_bind_ok, h1, except_bind_ok, h2, except_bind_ok, h3,
      except_bind_ok, h4, except_bind_ok]
    rfl

/-- C3 witness: the no-raise theorem applied to the malformed-but-typed
input `{"theme": {"name": "Bad Name!", "colors": {}}}`. -/
theorem claim3_validate_no_raise_witness :
    validate_input_ok (Val.dict [("theme",
        Val.dict [("name", Val.str "Bad Name!"), ("colors", Val.dict [])])]) = true ∧
      ∃ errs, validate_with_errors (Val.dict [("theme",
        Val.dict [("name", Val.str "Bad Name!"), ("colors", Val.dict [])])]) =
          .ok (errs.isEmpty, errs) :=
  ⟨by rfl, claim3_validate_no_raise _ (by rfl)⟩

end ThemeGen

namespace ThemeGen

theorem upChar_hex_pairs :
    lowerUpper.all (fun p => !isHexChar p.1 || isHexChar p.2) = true := by decide

theorem upChar_hex (c : Char) (h : isHexChar c = true) : isHexChar (upChar c) = true := by
  unfold upChar
  cases hf : lowerUpper.find? (fun p => p.1 == c) with
  | none => exact h
  | some p =>
    have hp := List.mem_of_find?_eq_some hf
    have hpc := List.find?_some hf
    have hall := List.all_eq_true.mp upChar_hex_pairs p hp
    simp only [Bool.or_eq_true, Bool.not_eq_true'] at hall
    rcases hall with h1 | h2
    · have hc : p.1 = c := by simpa using hpc
      rw [hc] at h1
      rw [h1] at h
      exact absurd h Bool.false_ne_true
    · exact h2

theorem upChar_newline : upChar '\n' = '\n' := rfl

theorem dlookup_mem {α : Type} (m : List (String × α)) (k : String) (v : α)
    (h : dlookup m k = some v) : (k, v) ∈ m := by
  induction m with
  | nil => simp [dlookup] at h
  | cons kv rest ih =>
    obtain ⟨k', v'⟩ := kv
    unfold dlookup at h
    by_cases he : k' = k
    · rw [if_pos he] at h
      injection h with h
      subst he
      subst h
      exact List.mem_cons_self _ _
    · rw [if_neg he] at h
      exact List.mem_cons_of_mem _ (ih h)

theorem dset_forall {α : Type} (P : String × α → Prop) (m : List (String × α))
    (k : String) (v : α) (hm : ∀ kv ∈ m, P kv) (hv : P (k, v)) :
    ∀ kv ∈ dset m k v, P kv := by
  induction m with
  | nil =>
    intro kv hkv
    simp only [dset, List.mem_singleton] at hkv
    rw [hkv]
    exact hv
  | cons kv0 rest ih =>
    obtain ⟨k', v'⟩ := kv0
    intro kv hkv
    unfold dset at hkv
    by_cases he : k' = k
    · rw [if_pos he] at hkv
      rcases List.mem_cons.mp hkv with h1 | h2
      · rw [h1]
        rw [← he] at hv
        exact hv
      · exact hm kv (List.mem_cons_of_mem _ h2)
    · rw [if_neg he] at hkv
      rcases List.mem_cons.mp hkv with h1 | h2
      · exact hm kv (h1 ▸ List.mem_cons_self _ _)
      · exact ih (fun x hx => hm x (List.mem_cons_of_mem _ hx)) kv h2

theorem mk_hex_valid (t : List Char) (hlen : t.length = 6 ∨ t.length = 8)
    (hall : t.all isHexChar = true) :
    validate_hex_color ⟨'#' :: t⟩ = true := by
  rw [validate_hex_color_iff]
  exact ⟨t, [], by simp, hlen, hall, Or.inl rfl⟩

theorem mk_hex_valid_rest (t rest : List Char) (hlen : t.length = 6 ∨ t.length = 8)
    (hall : t.all isHexChar = true) (hrest : rest = [] ∨ rest = ['\n']) :
    validate_hex_color ⟨'#' :: (t ++ rest)⟩ = true := by
  rw [validate_hex_color_iff]
  exact ⟨t, rest, by simp, hlen, hall, hrest⟩

theorem joinDoubled_length (t : List Char) : (joinDoubled t).length = 2 * t.length := by
  induction t with
  | nil => rfl
  | cons c rest ih =>
    simp only [joinDoubled, List.flatMap_cons] at ih ⊢
    simp [ih]
    omega

theorem joinDoubled_all (t : List Char) (P : Char → Bool) (h : t.all P = true) :
    (joinDoubled t).all P = true := by
  induction t with
  | nil => rfl
  | cons c rest ih =>
    rw [List.all_cons, Bool.and_eq_true] at h
    obtain ⟨hc, hrest⟩ := h
    simp only [joinDoubled, List.flatMap_cons, List.all_append, List.all_cons,
      List.all_nil, Bool.and_eq_true] at ih ⊢
    exact ⟨⟨hc, hc, trivial⟩, ih hrest⟩

theorem minimal_colors_valid :
    ∀ p ∈ _get_minimal_required_colors, validate_hex_color p.2 = true := by decide

theorem default_color_valid (key : String) :
    validate_hex_color (_get_default_color_for_key key) = true := by
  unfold _get_default_color_for_key
  cases hd : dlookup _get_minimal_required_colors key with
  | some c => exact minimal_colors_valid (key, c) (dlookup_mem _ _ _ hd)
  | none =>
    by_cases h1 : containsSub "background".data key.data
    · rw [if_pos h1]; decide
    · rw [if_neg h1]
      by_cases h2 : containsSub "foreground".data key.data
      · rw [if_pos h2]; decide
      · rw [if_neg h2]; decide

end ThemeGen

namespace ThemeGen

theorem map_upChar_all_hex (t : List Char) (h : t.all isHexChar = true) :
    (t.map upChar).all isHexChar = true := by
  rw [List.all_map]
  rw [List.all_eq_true] at h ⊢
  intro c hc
  exact upChar_hex c (h c hc)

theorem fix_colors_loop_valid (m : List (String × Val)) :
    ∀ acc, hash_values_hex m = true →
      (∀ kv ∈ acc, ∃ s : String, kv.2 = Val.str s ∧ validate_hex_color s = true) →
      ∀ kv ∈ fix_colors_loop m acc,
        ∃ s : String, kv.2 = Val.str s ∧ validate_hex_color s = true := by
  induction m with
  | nil =>
    intro acc _ hacc kv hkv
    exact hacc kv hkv
  | cons e rest ih =>
    intro acc hm hacc
    obtain ⟨key, v⟩ := e
    have hm' : (hash_value_ok v && hash_values_hex rest) = true := hm
    rw [Bool.and_eq_true] at hm'
    obtain ⟨hv, hrest'⟩ := hm'
    cases v with
    | str value =>
      show ∀ kv ∈ (if value.data.head? = some '#' then
          (if (value.data.tail.map upChar).length = 3 then
            fix_colors_loop rest (dset acc key (.str ⟨'#' :: joinDoubled (value.data.tail.map upChar)⟩))
          else if (value.data.tail.map upChar).length = 6 ∨ (value.data.tail.map upChar).length = 8 then
            fix_colors_loop rest (dset acc key (.str ⟨'#' :: value.data.tail.map upChar⟩))
          else fix_colors_loop rest acc)
        else
          (if matchHexN value.data 6 then
            fix_colors_loop rest (dset acc key (.str ⟨'#' :: value.data.map upChar⟩))
          else fix_colors_loop rest acc)), _
      by_cases hh : value.data.head? = some '#'
      · rw [if_pos hh]
        have hv2 : hashTailHex value.data = true := hv
        cases hd : value.data with
        | nil => rw [hd] at hh; simp at hh
        | cons c tail0 =>
          have hc : c = '#' := by
            rw [hd] at hh
            simpa using hh
          subst hc
          rw [hd] at hv2
          have hv' : tail0.all isHexChar = true := hv2
          simp only [List.tail_cons]
          have hup : (tail0.map upChar).all isHexChar = true := map_upChar_all_hex tail0 hv'
          by_cases h3 : (tail0.map upChar).length = 3
          · rw [if_pos h3]
            refine ih _ hrest' (dset_forall _ acc key _ hacc ?_)
            refine ⟨_, rfl, ?_⟩
            apply mk_hex_valid
            · rw [joinDoubled_length, h3]
              left
              rfl
            · exact joinDoubled_all _ _ hup
          · rw [if_neg h3]
            by_cases h68 : (tail0.map upChar).length = 6 ∨ (tail0.map upChar).length = 8
            · rw [if_pos h68]
              refine ih _ hrest' (dset_forall _ acc key _ hacc ?_)
              exact ⟨_, rfl, mk_hex_valid _ h68 hup⟩
            · rw [if_neg h68]
              exact ih _ hrest' hacc
      · rw [if_neg hh]
        by_cases hb : matchHexN value.data 6 = true
        · rw [if_pos hb]
          refine ih _ hrest' (dset_forall _ acc key _ hacc ?_)
          refine ⟨_, rfl, ?_⟩
          rw [matchHexN_iff] at hb
          obtain ⟨t, rOut, hsplit, hlen, hall, hrOut⟩ := hb
          rw [hsplit, List.map_append]
          have hmt : (t.map upChar).all isHexChar = true := map_upChar_all_hex t hall
          have hmr : rOut.map upChar = rOut := by
            rcases hrOut with h1 | h1 <;> rw [h1] <;> rfl
          rw [hmr]
          apply mk_hex_valid_rest
          · left
            rw [List.length_map, hlen]
          · exact hmt
          · exact hrOut
        · rw [if_neg hb]
          exact ih _ hrest' hacc
    | int n =>
      show ∀ kv ∈ fix_colors_loop rest acc, _
      exact ih _ hrest' hacc
    | list xs =>
      show ∀ kv ∈ fix_colors_loop rest acc, _
      exact ih _ hrest' hacc
    | dict kvs =>
      show ∀ kv ∈ fix_colors_loop rest acc, _
      exact ih _ hrest' hacc
    | null =>
      show ∀ kv ∈ fix_colors_loop rest acc, _
      exact ih _ hrest' hacc

theorem fix_colors_defaults_valid (keys : List String) (start : List (String × Val))
    (hstart : ∀ kv ∈ start, ∃ s : String, kv.2 = Val.str s ∧ validate_hex_color s = true) :
    ∀ kv ∈ keys.foldl (fun acc key =>
        if dmem acc key then acc
        else dset acc key (.str (_get_default_color_for_key key))) start,
      ∃ s : String, kv.2 = Val.str s ∧ validate_hex_color s = true := by
  induction keys generalizing start with
  | nil => exact hstart
  | cons k ks ih =>
    simp only [List.foldl_cons]
    apply ih
    by_cases hmem : dmem start k
    · rw [if_pos hmem]
      exact hstart
    · rw [if_neg hmem]
      exact dset_forall _ start k _ hstart ⟨_, rfl, default_color_valid k⟩

/-- C10 (amended): if every `#`-prefixed string value in the input
colors map has only hex digits after the `#` (the `#`-branch of
`_fix_colors` passes length-3/6/8 values through without checking
their digits), then every value of the repaired map is a string that
passes `validateHex`, whether it came from expanding a 3-digit value,
uppercasing a 6/8-digit value, re-prefixing a bare 6-digit value, or a
per-key default. Without that hypothesis the invariant fails (see
counterexample). -/
theorem claim10_fixed_colors_valid (m : List (String × Val))
    (h : hash_values_hex m = true) :
    ∀ kv ∈ _fix_colors m, ∃ s : String, kv.2 = Val.str s ∧ validate_hex_color s = true := by
  unfold _fix_colors
  apply fix_colors_defaults_valid
  apply fix_colors_loop_valid m [] h
  intro kv hkv
  simp at hkv

/-- C10 witness: the amended theorem applied to a map holding a
3-digit hex value. -/
theorem claim10_fixed_colors_valid_witness :
    hash_values_hex [("accent", Val.str "#abc")] = true ∧
      ∀ kv ∈ _fix_colors [("accent", Val.str "#abc")],
        ∃ s : String, kv.2 = Val.str s ∧ validate_hex_color s = true :=
  ⟨by decide, claim10_fixed_colors_valid _ (by decide)⟩

/-- C10 counterexample: `_fix_colors` re-prefixes `"#gggggg"` (length
6, but not hex) as `"#GGGGGG"`, which fails `validateHex`, so the
unconditional output-validity invariant claimed is false. -/
theorem claim10_counterexample :
    dlookup (_fix_colors [("editor.background", Val.str "#gggggg")]) "editor.background" =
      some (Val.str "#GGGGGG") ∧ validate_hex_color "#GGGGGG" = false := by
  exact ⟨rfl, rfl⟩

end ThemeGen

namespace ThemeGen

/-- C9 counterexample: a token whose `scope` is the EMPTY list is kept
by the repair (only presence and type of `scope` are checked), so
"keeps exactly those entries that end up with a non-empty scope" is
false. -/
theorem claim9_counterexample :
    _fix_token_colors (Val.list [Val.dict [("scope", Val.list []),
        ("settings", Val.dict [("fontStyle", Val.str "bold")])]]) =
      [Val.dict [("scope", Val.list []),
        ("settings", Val.dict [("fontStyle", Val.str "bold")])]] := by
  rfl

/-- C9 (amended): the token-color repair maps `filterMap` of the
per-token fix over the list, dropping every non-dict entry; a string
scope is normalized to a one-element list and a list scope is kept
as-is (possibly empty); a token is kept iff its `scope` is present
with string or list type and its assembled settings are non-empty; the
retained settings keys are exactly `foreground` (only when a hex-valid
string), `fontStyle` and `background`; dropped entries are never
replaced with defaults. -/
theorem claim9_token_fix (tokens : List Val) :
    _fix_token_colors (Val.list tokens) = tokens.filterMap fix_token ∧
    (∀ t ∈ tokens, (∀ kvs, t ≠ Val.dict kvs) → fix_token t = none) ∧
    (∀ s, token_scope (Val.str s) = some (Val.list [Val.str s])) ∧
    (∀ xs, token_scope (Val.list xs) = some (Val.list xs)) ∧
    (∀ tk : List (String × Val), fix_token (Val.dict tk) ≠ none ↔
      ((∃ sv, dlookup tk "scope" = some sv ∧ token_scope sv ≠ none) ∧
        token_settings tk ≠ [])) ∧
    (∀ tk : List (String × Val), ∀ k v, (k, v) ∈ token_settings tk →
      ((k = "foreground" ∧ ∃ fg, v = Val.str fg ∧ validate_hex_color fg = true) ∨
        k = "fontStyle" ∨ k = "background")) := by
  refine ⟨rfl, ?_, fun s => rfl, fun xs => rfl, ?_, ?_⟩
  · intro t _ hne
    cases t with
    | dict kvs => exact absurd rfl (hne kvs)
    | str s => rfl
    | int n => rfl
    | list xs => rfl
    | null => rfl
  · intro tk
    have hred : fix_token (Val.dict tk) = (match dlookup tk "scope" with
      | some sv =>
        (match token_scope sv with
         | some scopeVal =>
           if (token_settings tk).isEmpty then none
           else some (Val.dict
             ([("scope", scopeVal), ("settings", Val.dict (token_settings tk))] ++
               (match dlookup tk "name" with
                | some nv => [("name", nv)]
                | none => [])))
         | none => none)
      | none => none) := rfl
    rw [hred]
    cases hs : dlookup tk "scope" with
    | none =>
      constructor
      · intro hfalse
        exact absurd rfl hfalse
      · rintro ⟨⟨sv, hsv, _⟩, _⟩
        exact Option.noConfusion hsv
    | some sv =>
      show ((match token_scope sv with
         | some scopeVal =>
           if (token_settings tk).isEmpty then none
           else some (Val.dict
             ([("scope", scopeVal), ("settings", Val.dict (token_settings tk))] ++
               (match dlookup tk "name" with
                | some nv => [("name", nv)]
                | none => [])))
         | none => none) ≠ none) ↔ _
      cases hsc : token_scope sv with
      | none =>
        constructor
        · intro hfalse
          exact absurd rfl hfalse
        · rintro ⟨⟨sv2, hsv2, hsc2⟩, _⟩
          injection hsv2 with h
          exact absurd (h ▸ hsc) hsc2
      | some scopeVal =>
        show ((if (token_settings tk).isEmpty then none
           else some (Val.dict
             ([("scope", scopeVal), ("settings", Val.dict (token_settings tk))] ++
               (match dlookup tk "name" with
                | some nv => [("name", nv)]
                | none => [])))) ≠ none) ↔ _
        by_cases hemp : (token_settings tk).isEmpty
        · rw [if_pos hemp]
          constructor
          · intro hfalse
            exact absurd rfl hfalse
          · rintro ⟨_, hne⟩
            exact absurd (List.isEmpty_iff.mp hemp) hne
        · rw [if_neg hemp]
          constructor
          · intro _
            refine ⟨⟨sv, rfl, ?_⟩, ?_⟩
            · rw [hsc]
              exact fun hcon => Option.noConfusion hcon
            · intro hnil
              rw [hnil] at hemp
              exact hemp rfl
          · intro _
            exact fun hcon => Option.noConfusion hcon
  · intro tk k v hmem
    have hred : token_settings tk = (match dlookup tk "settings" with
      | some (.dict sd) =>
        (match dlookup sd "foreground" with
         | some (.str fg) =>
           if validate_hex_color fg then [("foreground", Val.str fg)] else []
         | _ => []) ++
        (match dlookup sd "fontStyle" with
         | some v => [("fontStyle", v)]
         | none => []) ++
        (match dlookup sd "background" with
         | some v => [("background", v)]
         | none => [])
      | _ => []) := rfl
    rw [hred] at hmem
    cases hset : dlookup tk "settings" with
    | none =>
      rw [hset] at hmem
      simp at hmem
    | some sv =>
      rw [hset] at hmem
      cases sv with
      | dict sd =>
        rw [List.mem_append, List.mem_append] at hmem
        rcases hmem with (h1 | h2) | h3
        · left
          cases hf : dlookup sd "foreground" with
          | none => rw [hf] at h1; simp at h1
          | some fv =>
            rw [hf] at h1
            cases fv with
            | str fg =>
              have h1x : (k, v) ∈ (if validate_hex_color fg then
                  [("foreground", Val.str fg)] else []) := h1
              by_cases hvf : validate_hex_color fg
              · rw [if_pos hvf] at h1x
                have h := List.mem_singleton.mp h1x
                injection h with h1a h1b
                exact ⟨h1a, fg, h1b, hvf⟩
              · rw [if_neg hvf] at h1x
                simp at h1x
            | int n =>
              have h1x : (k, v) ∈ ([] : List (String × Val)) := h1
              simp at h1x
            | list xs =>
              have h1x : (k, v) ∈ ([] : List (String × Val)) := h1
              simp at h1x
            | dict kvs =>
              have h1x : (k, v) ∈ ([] : List (String × Val)) := h1
              simp at h1x
            | null =>
              have h1x : (k, v) ∈ ([] : List (String × Val)) := h1
              simp at h1x
        · right
          left
          cases hfs : dlookup sd "fontStyle" with
          | none => rw [hfs] at h2; simp at h2
          | some fv =>
            rw [hfs] at h2
            have h := List.mem_singleton.mp h2
            injection h with h2a h2b
        · right
          right
          cases hbg : dlookup sd "background" with
          | none => rw [hbg] at h3; simp at h3
          | some fv =>
            rw [hbg] at h3
            have h := List.mem_singleton.mp h3
            injection h with h3a h3b
      | str s =>
        have hx : (k, v) ∈ ([] : List (String × Val)) := hmem
        simp at hx
      | int n =>
        have hx : (k, v) ∈ ([] : List (String × Val)) := hmem
        simp at hx
      | list xs =>
        have hx : (k, v) ∈ ([] : List (String × Val)) := hmem
        simp at hx
      | null =>
        have hx : (k, v) ∈ ([] : List (String × Val)) := hmem
        simp at hx

end ThemeGen

namespace ThemeGen

theorem hexDigitVal_of_hex (c : Char) (h : isHexChar c = true) :
    ∃ d, hexDigitVal c = some d := by
  unfold isHexChar at h
  simp only [Bool.or_eq_true, Bool.and_eq_true, decide_eq_true_eq] at h
  unfold hexDigitVal
  split_ifs with h1 h2 h3
  · exact ⟨_, rfl⟩
  · exact ⟨_, rfl⟩
  · exact ⟨_, rfl⟩
  · tauto

theorem parseHexNat_pair (a b : Char) (ha : isHexChar a = true) (hb : isHexChar b = true) :
    ∃ n, parseHexNat [a, b] = some n := by
  obtain ⟨da, hda⟩ := hexDigitVal_of_hex a ha
  obtain ⟨db, hdb⟩ := hexDigitVal_of_hex b hb
  refine ⟨16 * (16 * 0 + da) + db, ?_⟩
  have hform : parseHexNat [a, b] =
      (match hexDigitVal a with
       | some d =>
         (match hexDigitVal b with
          | some e => some (16 * (16 * 0 + d) + e)
          | none => none)
       | none => none) := rfl
  rw [hform, hda, hdb]

theorem hex_to_rgb_of_valid (s : String) (h : validate_hex_color s = true) :
    ∃ r g b, hex_to_rgb s = some (r, g, b) := by
  rw [validate_hex_color_iff] at h
  obtain ⟨t, rest, hdata, hlen, hall, hrest⟩ := h
  obtain ⟨c0, c1, c2, c3, c4, c5, t6, ht⟩ :
      ∃ c0 c1 c2 c3 c4 c5 t6, t = c0::c1::c2::c3::c4::c5::t6 := by
    rcases t with _|⟨c0, t⟩
    · simp at hlen
    rcases t with _|⟨c1, t⟩
    · simp at hlen
    rcases t with _|⟨c2, t⟩
    · simp at hlen
    rcases t with _|⟨c3, t⟩
    · simp at hlen
    rcases t with _|⟨c4, t⟩
    · simp at hlen
    rcases t with _|⟨c5, t⟩
    · simp at hlen
    exact ⟨c0, c1, c2, c3, c4, c5, t, rfl⟩
  subst ht
  simp only [List.all_cons, Bool.and_eq_true] at hall
  obtain ⟨h0, h1, h2, h3, h4, h5, ht6⟩ := hall
  have hc0 : (c0 == '#') = false := by
    cases hcc : c0 == '#'
    · rfl
    · rw [beq_iff_eq] at hcc
      rw [hcc] at h0
      exact absurd h0 (by decide)
  have hdrop : s.data.dropWhile (fun c => c == '#') =
      (c0::c1::c2::c3::c4::c5::t6) ++ rest := by
    rw [hdata]
    have hstep : ('#' :: ((c0::c1::c2::c3::c4::c5::t6) ++ rest)).dropWhile (fun c => c == '#') =
        ((c0::c1::c2::c3::c4::c5::t6) ++ rest).dropWhile (fun c => c == '#') := by
      rw [List.dropWhile_cons]
      simp
    rw [hstep]
    show (c0 :: ((c1::c2::c3::c4::c5::t6) ++ rest)).dropWhile (fun c => c == '#') = _
    rw [List.dropWhile_cons, hc0]
    rfl
  obtain ⟨suffix, hsuffix⟩ : ∃ suffix,
      (if (((c0::c1::c2::c3::c4::c5::t6) ++ rest) : List Char).length = 8 then
        (((c0::c1::c2::c3::c4::c5::t6) ++ rest) : List Char).take 6
      else ((c0::c1::c2::c3::c4::c5::t6) ++ rest)) = c0::c1::c2::c3::c4::c5::suffix := by
    by_cases h8 : (((c0::c1::c2::c3::c4::c5::t6) ++ rest) : List Char).length = 8
    · rw [if_pos h8]
      exact ⟨(t6 ++ rest).take 0, rfl⟩
    · rw [if_neg h8]
      exact ⟨t6 ++ rest, rfl⟩
  obtain ⟨n0, hn0⟩ := parseHexNat_pair c0 c1 h0 h1
  obtain ⟨n1, hn1⟩ := parseHexNat_pair c2 c3 h2 h3
  obtain ⟨n2, hn2⟩ := parseHexNat_pair c4 c5 h4 h5
  refine ⟨n0, n1, n2, ?_⟩
  show (do
    let cs0 := s.data.dropWhile (fun c => c == '#')
    let cs := if cs0.length = 8 then cs0.take 6 else cs0
    let r ← parseHexNat ((cs.drop 0).take 2)
    let g ← parseHexNat ((cs.drop 2).take 2)
    let b ← parseHexNat ((cs.drop 4).take 2)
    return (r, g, b) : Option (Nat × Nat × Nat)) = some (n0, n1, n2)
  rw [hdrop]
  show (do
    let r ← parseHexNat (((if (((c0::c1::c2::c3::c4::c5::t6) ++ rest) : List Char).length = 8 then
        (((c0::c1::c2::c3::c4::c5::t6) ++ rest) : List Char).take 6
      else ((c0::c1::c2::c3::c4::c5::t6) ++ rest)).drop 0).take 2)
    let g ← parseHexNat (((if (((c0::c1::c2::c3::c4::c5::t6) ++ rest) : List Char).length = 8 then
        (((c0::c1::c2::c3::c4::c5::t6) ++ rest) : List Char).take 6
      else ((c0::c1::c2::c3::c4::c5::t6) ++ rest)).drop 2).take 2)
    let b ← parseHexNat (((if (((c0::c1::c2::c3::c4::c5::t6) ++ rest) : List Char).length = 8 then
        (((c0::c1::c2::c3::c4::c5::t6) ++ rest) : List Char).take 6
      else ((c0::c1::c2::c3::c4::c5::t6) ++ rest)).drop 4).take 2)
    return (r, g, b) : Option (Nat × Nat × Nat)) = some (n0, n1, n2)
  rw [hsuffix]
  show (do
    let r ← parseHexNat [c0, c1]
    let g ← parseHexNat [c2, c3]
    let b ← parseHexNat [c4, c5]
    return (r, g, b) : Option (Nat × Nat × Nat)) = some (n0, n1, n2)
  rw [hn0, hn1, hn2]
  rfl

end ThemeGen

namespace ThemeGen

theorem adjust_channel_nonneg (n : Nat) : 0 ≤ adjust_channel n := by
  unfold adjust_channel
  by_cases h : ((n : ℝ) / 255) ≤ 0.03928
  · rw [if_pos h]
    positivity
  · rw [if_neg h]
    apply Real.rpow_nonneg
    positivity

theorem luminance_of_rgb (s : String) (r g b : Nat) (hp : hex_to_rgb s = some (r, g, b)) :
    get_luminance s = some (0.2126 * adjust_channel r + 0.7152 * adjust_channel g
      + 0.0722 * adjust_channel b) := by
  show (hex_to_rgb s).map _ = _
  rw [hp]
  rfl

/-- C7: for valid hex colors the contrast ratio exists and equals
`(max L1 L2 + 0.05) / (min L1 L2 + 0.05)` on the two WCAG luminances,
hence it is symmetric in its arguments and at least 1. -/
theorem claim7_contrast_ratio_props (a b : String)
    (ha : validate_hex_color a = true) (hb : validate_hex_color b = true) :
    ∃ l1 l2, get_luminance a = some l1 ∧ get_luminance b = some l2 ∧
      calculate_contrast_ratio a b = some ((max l1 l2 + 0.05) / (min l1 l2 + 0.05)) ∧
      calculate_contrast_ratio a b = calculate_contrast_ratio b a ∧
      1 ≤ (max l1 l2 + 0.05) / (min l1 l2 + 0.05) := by
  obtain ⟨r1, g1, b1, hp1⟩ := hex_to_rgb_of_valid a ha
  obtain ⟨r2, g2, b2, hp2⟩ := hex_to_rgb_of_valid b hb
  have hl1 := luminance_of_rgb a r1 g1 b1 hp1
  have hl2 := luminance_of_rgb b r2 g2 b2 hp2
  set l1 : ℝ := 0.2126 * adjust_channel r1 + 0.7152 * adjust_channel g1
    + 0.0722 * adjust_channel b1 with hl1def
  set l2 : ℝ := 0.2126 * adjust_channel r2 + 0.7152 * adjust_channel g2
    + 0.0722 * adjust_channel b2 with hl2def
  have hnn1 : 0 ≤ l1 := by
    rw [hl1def]
    have := adjust_channel_nonneg r1
    have := adjust_channel_nonneg g1
    have := adjust_channel_nonneg b1
    positivity
  have hnn2 : 0 ≤ l2 := by
    rw [hl2def]
    have := adjust_channel_nonneg r2
    have := adjust_channel_nonneg g2
    have := adjust_channel_nonneg b2
    positivity
  have hcab : calculate_contrast_ratio a b = some ((max l1 l2 + 0.05) / (min l1 l2 + 0.05)) := by
    show (do
      let x ← get_luminance a
      let y ← get_luminance b
      return (max x y + 0.05) / (min x y + 0.05) : Option ℝ) = _
    rw [hl1, hl2]
    rfl
  have hcba : calculate_contrast_ratio b a = some ((max l2 l1 + 0.05) / (min l2 l1 + 0.05)) := by
    show (do
      let x ← get_luminance b
      let y ← get_luminance a
      return (max x y + 0.05) / (min x y + 0.05) : Option ℝ) = _
    rw [hl2, hl1]
    rfl
  refine ⟨l1, l2, hl1, hl2, hcab, ?_, ?_⟩
  · rw [hcab, hcba, max_comm, min_comm]
  · have hpos : (0 : ℝ) < min l1 l2 + 0.05 := by
      have : (0 : ℝ) ≤ min l1 l2 := le_min hnn1 hnn2
      linarith
    rw [one_le_div hpos]
    have : min l1 l2 ≤ max l1 l2 := min_le_max
    linarith

/-- C7 witness: the theorem applied at black on black, where the
contrast ratio is exactly 1. -/
theorem claim7_contrast_ratio_props_witness :
    validate_hex_color "#000000" = true ∧
      ∃ l1 l2, get_luminance "#000000" = some l1 ∧ get_luminance "#000000" = some l2 ∧
        calculate_contrast_ratio "#000000" "#000000" =
          some ((max l1 l2 + 0.05) / (min l1 l2 + 0.05)) ∧
        calculate_contrast_ratio "#000000" "#000000" =
          calculate_contrast_ratio "#000000" "#000000" ∧
        1 ≤ (max l1 l2 + 0.05) / (min l1 l2 + 0.05) :=
  ⟨by decide, claim7_contrast_ratio_props "#000000" "#000000" (by decide) (by decide)⟩

end ThemeGen

namespace ThemeGen

theorem hexChar_is_hex : ∀ d, d < 16 → isHexChar (hexChar d) = true := by decide

theorem natHexDigitsAux_small (fuel m : Nat) (acc : List Char) (hm : m < 16)
    (hf : 0 < fuel) : natHexDigitsAux fuel m acc = hexChar m :: acc := by
  cases fuel with
  | zero => omega
  | succ f =>
    unfold natHexDigitsAux
    rw [if_pos hm]

theorem pad2_shape (n : Nat) (hn : n ≤ 255) :
    ∃ a b, pad2 n = [a, b] ∧ isHexChar a = true ∧ isHexChar b = true := by
  by_cases h16 : n < 16
  · refine ⟨'0', hexChar n, ?_, by decide, hexChar_is_hex n h16⟩
    unfold pad2 natHexDigits
    rw [natHexDigitsAux_small (n + 1) n [] h16 (by omega)]
    rfl
  · refine ⟨hexChar (n / 16), hexChar (n % 16), ?_, hexChar_is_hex _ (by omega),
      hexChar_is_hex _ (by omega)⟩
    unfold pad2 natHexDigits
    have hstep : natHexDigitsAux (n + 1) n [] =
        natHexDigitsAux n (n / 16) [hexChar (n % 16)] := by
      show (if n < 16 then hexChar n :: [] else
        natHexDigitsAux n (n / 16) (hexChar (n % 16) :: [])) = _
      rw [if_neg h16]
    rw [hstep, natHexDigitsAux_small n (n / 16) [hexChar (n % 16)] (by omega) (by omega)]
    rfl

theorem rgb_to_hex_valid (r g b : Nat) (hr : r ≤ 255) (hg : g ≤ 255) (hb : b ≤ 255) :
    validate_hex_color (rgb_to_hex r g b) = true := by
  obtain ⟨a1, a2, hpa, ha1, ha2⟩ := pad2_shape r hr
  obtain ⟨b1, b2, hpb, hb1, hb2⟩ := pad2_shape g hg
  obtain ⟨c1, c2, hpc, hc1, hc2⟩ := pad2_shape b hb
  unfold rgb_to_hex
  rw [hpa, hpb, hpc]
  apply mk_hex_valid
  · left
    rfl
  · show ([a1, a2] ++ [b1, b2] ++ [c1, c2]).all isHexChar = true
    simp [ha1, ha2, hb1, hb2, hc1, hc2]

theorem clampChannel_le (i : Int) : clampChannel i ≤ 255 := by
  unfold clampChannel
  rw [Int.toNat_le]
  exact max_le (by norm_num) (min_le_left _ _)

theorem adjust_brightness_some (fg : String) (p : Int) (r g b : Nat)
    (hp : hex_to_rgb fg = some (r, g, b)) :
    ∃ c, adjust_brightness fg p = some c ∧ validate_hex_color c = true := by
  refine ⟨rgb_to_hex (clampChannel (ftrunc (float_scaled r p)))
      (clampChannel (ftrunc (float_scaled g p)))
      (clampChannel (ftrunc (float_scaled b p))), ?_, ?_⟩
  · show (hex_to_rgb fg).map _ = _
    rw [hp]
    rfl
  · exact rgb_to_hex_valid _ _ _ (clampChannel_le _) (clampChannel_le _) (clampChannel_le _)

theorem contrast_some (a b : String) (ha : validate_hex_color a = true)
    (hb : validate_hex_color b = true) :
    ∃ r, calculate_contrast_ratio a b = some r := by
  obtain ⟨r1, g1, b1, hp1⟩ := hex_to_rgb_of_valid a ha
  obtain ⟨r2, g2, b2, hp2⟩ := hex_to_rgb_of_valid b hb
  have hl1 := luminance_of_rgb a r1 g1 b1 hp1
  have hl2 := luminance_of_rgb b r2 g2 b2 hp2
  set l1 : ℝ := 0.2126 * adjust_channel r1 + 0.7152 * adjust_channel g1
    + 0.0722 * adjust_channel b1
  set l2 : ℝ := 0.2126 * adjust_channel r2 + 0.7152 * adjust_channel g2
    + 0.0722 * adjust_channel b2
  refine ⟨(max l1 l2 + 0.05) / (min l1 l2 + 0.05), ?_⟩
  show (do
    let x ← get_luminance a
    let y ← get_luminance b
    return (max x y + 0.05) / (min x y + 0.05) : Option ℝ) = _
  rw [hl1, hl2]
  rfl

theorem validate_ne_empty (s : String) (h : validate_hex_color s = true) : s ≠ "" := by
  intro hnil
  rw [hnil] at h
  exact absurd h (by decide)

theorem adjust_loop_eq_find (bg fg : String) (t : ℝ)
    (hbg : validate_hex_color bg = true) (hfg : validate_hex_color fg = true) :
    ∀ l : List Int,
      adjust_loop bg fg t l =
        some (((l.flatMap fun a =>
          (adjust_brightness fg a).toList ++ (adjust_brightness fg (-a)).toList).find?
            (meets bg t)).getD fg) := by
  obtain ⟨r0, g0, b0, hp0⟩ := hex_to_rgb_of_valid fg hfg
  intro l
  induction l with
  | nil => rfl
  | cons a rest ih =>
    obtain ⟨br, hbr, hbrv⟩ := adjust_brightness_some fg a r0 g0 b0 hp0
    obtain ⟨dk, hdk, hdkv⟩ := adjust_brightness_some fg (-a) r0 g0 b0 hp0
    obtain ⟨rb, hrb⟩ := contrast_some bg br hbg hbrv
    obtain ⟨rd, hrd⟩ := contrast_some bg dk hbg hdkv
    have hmbr : meets bg t br = decide (t ≤ rb) := by
      unfold meets
      rw [hrb]
    have hmdk : meets bg t dk = decide (t ≤ rd) := by
      unfold meets
      rw [hrd]
    have hcands : ((a :: rest).flatMap fun x =>
        (adjust_brightness fg x).toList ++ (adjust_brightness fg (-x)).toList) =
        br :: dk :: (rest.flatMap fun x =>
          (adjust_brightness fg x).toList ++ (adjust_brightness fg (-x)).toList) := by
      rw [List.flatMap_cons, hbr, hdk]
      rfl
    rw [hcands]
    unfold adjust_loop
    simp only [hbr, hrb, hdk, hrd]
    by_cases hb1 : t ≤ rb
    · rw [if_pos hb1]
      rw [List.find?_cons_of_pos _ (by rw [hmbr]; exact decide_eq_true hb1)]
      rfl
    · rw [if_neg hb1]
      rw [List.find?_cons_of_neg _ (by rw [hmbr]; simpa using hb1)]
      by_cases hb2 : t ≤ rd
      · rw [if_pos hb2]
        rw [List.find?_cons_of_pos _ (by rw [hmdk]; exact decide_eq_true hb2)]
        rfl
      · rw [if_neg hb2]
        rw [List.find?_cons_of_neg _ (by rw [hmdk]; simpa using hb2)]
        exact ih

theorem adjust_for_contrast_eq (bg fg : String) (t : ℝ)
    (hbg : validate_hex_color bg = true) (hfg : validate_hex_color fg = true) :
    _adjust_for_contrast bg fg t = some (repaired_fg bg fg t) := by
  unfold _adjust_for_contrast repaired_fg repair_candidates
  exact adjust_loop_eq_find bg fg t hbg hfg _

theorem repair_candidates_valid (fg : String) (hfg : validate_hex_color fg = true) :
    ∀ c ∈ repair_candidates fg, validate_hex_color c = true := by
  obtain ⟨r0, g0, b0, hp0⟩ := hex_to_rgb_of_valid fg hfg
  intro c hc
  unfold repair_candidates at hc
  rw [List.mem_flatMap] at hc
  obtain ⟨a, _, hmem⟩ := hc
  rw [List.mem_append] at hmem
  obtain ⟨cb, hcb, hcbv⟩ := adjust_brightness_some fg a r0 g0 b0 hp0
  obtain ⟨cd, hcd, hcdv⟩ := adjust_brightness_some fg (-a) r0 g0 b0 hp0
  rcases hmem with hm | hm
  · rw [hcb] at hm
    simp only [Option.toList_some, List.mem_singleton] at hm
    rw [hm]
    exact hcbv
  · rw [hcd] at hm
    simp only [Option.toList_some, List.mem_singleton] at hm
    rw [hm]
    exact hcdv

theorem repaired_fg_valid (bg fg : String) (t : ℝ) (hfg : validate_hex_color fg = true) :
    validate_hex_color (repaired_fg bg fg t) = true := by
  unfold repaired_fg
  cases hf : (repair_candidates fg).find? (meets bg t) with
  | none => exact hfg
  | some c =>
    have := List.mem_of_find?_eq_some hf
    exact repair_candidates_valid fg hfg c this

theorem dlookup_dset_self {α : Type} (m : List (String × α)) (k : String) (v : α) :
    dlookup (dset m k v) k = some v := by
  induction m with
  | nil => simp [dset, dlookup]
  | cons kv rest ih =>
    obtain ⟨k0, v0⟩ := kv
    by_cases h : k0 = k
    · subst h
      simp [dset, dlookup]
    · simp [dset, dlookup, h, ih]

theorem dlookup_dset_ne {α : Type} (m : List (String × α)) (k kq : String) (v : α)
    (h : kq ≠ k) : dlookup (dset m k v) kq = dlookup m kq := by
  induction m with
  | nil => simp [dset, dlookup, Ne.symm h]
  | cons kv rest ih =>
    obtain ⟨k0, v0⟩ := kv
    by_cases h0 : k0 = k
    · subst h0
      simp [dset, dlookup, Ne.symm h]
    · by_cases h1 : k0 = kq
      · subst h1
        simp [dset, dlookup, h0]
      · simp [dset, dlookup, h0, h1, ih]

theorem dset_lookup_self {α : Type} (m : List (String × α)) (k : String) (v : α)
    (h : dlookup m k = some v) : dset m k v = m := by
  induction m with
  | nil => simp [dlookup] at h
  | cons kv rest ih =>
    obtain ⟨k0, v0⟩ := kv
    by_cases h0 : k0 = k
    · subst h0
      have h2 : (if k0 = k0 then some v0 else dlookup rest k0) = some v := h
      rw [if_pos rfl] at h2
      injection h2 with h3
      subst h3
      show (if k0 = k0 then (k0, v0) :: rest else (k0, v0) :: dset rest k0 v0) =
        (k0, v0) :: rest
      rw [if_pos rfl]
    · have h2 : (if k0 = k then some v0 else dlookup rest k) = some v := h
      rw [if_neg h0] at h2
      show (if k0 = k then (k0, v) :: rest else (k0, v0) :: dset rest k v) =
        (k0, v0) :: rest
      rw [if_neg h0, ih h2]

theorem dmem_dset_self {α : Type} (m : List (String × α)) (k : String) (v : α) :
    dmem (dset m k v) k = true := by
  simp [dmem, dlookup_dset_self]

theorem dmem_dset_mono {α : Type} (m : List (String × α)) (k kq : String) (v : α)
    (h : dmem m kq = true) : dmem (dset m k v) kq = true := by
  by_cases hk : kq = k
  · subst hk
    exact dmem_dset_self m kq v
  · simpa [dmem, dlookup_dset_ne m k kq v hk] using h

theorem fix_pair_cases (colors acc : List (String × String)) (p : String × String × ℚ) :
    fix_pair colors acc p = some acc ∨
      ∃ v, fix_pair colors acc p = some (dset acc p.2.1 v) := by
  cases hb : dlookup colors p.1 with
  | none =>
    left
    simp only [fix_pair]
    rw [hb]
  | some bg =>
    cases hf : dlookup colors p.2.1 with
    | none =>
      left
      simp only [fix_pair]
      rw [hb, hf]
    | some fg =>
      by_cases hv : (validate_hex_color bg && validate_hex_color fg) = true
      · have hv2 := hv
        rw [Bool.and_eq_true] at hv2
        obtain ⟨hvb, hvf⟩ := hv2
        obtain ⟨r, hr⟩ := contrast_some bg fg hvb hvf
        have hadj := adjust_for_contrast_eq bg fg (p.2.2 : ℝ) hvb hvf
        have hred : fix_pair colors acc p =
            (if r < ((p.2.2 : ℚ) : ℝ) then
               if (!(repaired_fg bg fg ((p.2.2 : ℚ) : ℝ)).isEmpty &&
                   decide (repaired_fg bg fg ((p.2.2 : ℚ) : ℝ) ≠ fg)) = true then
                 some (dset acc p.2.1 (repaired_fg bg fg ((p.2.2 : ℚ) : ℝ)))
               else some acc
             else some acc) := by
          simp only [fix_pair, hb, hf, hr, hadj]
          rw [if_pos hv]
        rw [hred]
        split
        · split
          · right
            exact ⟨_, rfl⟩
          · left
            rfl
        · left
          rfl
      · left
        simp only [fix_pair, hb, hf]
        rw [if_neg hv]

theorem fix_pair_total_frame (colors acc : List (String × String)) (p : String × String × ℚ) :
    ∃ accq, fix_pair colors acc p = some accq ∧
      ∀ k, k ≠ p.2.1 → dlookup accq k = dlookup acc k := by
  rcases fix_pair_cases colors acc p with h | ⟨v, h⟩
  · exact ⟨acc, h, fun k _ => rfl⟩
  · exact ⟨_, h, fun k hk => dlookup_dset_ne acc p.2.1 k v hk⟩

theorem check_loop_total_frame (colors : List (String × String)) :
    ∀ (ps : List (String × String × ℚ)) (acc : List (String × String)),
      ∃ res, check_and_fix_loop colors ps acc = some res ∧
        ∀ k, k ∉ ps.map (fun p => p.2.1) → dlookup res k = dlookup acc k := by
  intro ps
  induction ps with
  | nil => exact fun acc => ⟨acc, rfl, fun k _ => rfl⟩
  | cons p rest ih =>
    intro acc
    obtain ⟨acc1, h1, hfr1⟩ := fix_pair_total_frame colors acc p
    obtain ⟨res, h2, hfr2⟩ := ih acc1
    refine ⟨res, ?_, ?_⟩
    · simp only [check_and_fix_loop, h1]
      exact h2
    · intro k hk
      simp only [List.map_cons, List.mem_cons, not_or] at hk
      exact (hfr2 k hk.2).trans (hfr1 k hk.1)

/-- C5: the contrast-repair routine never writes to a key outside the
foreground keys of the fixed pair table, so every other key — in
particular every background key — keeps its original value, and the
routine raises no error. -/
theorem claim5_background_never_modified (colors : List (String × String)) (k : String)
    (hk : k ∉ foreground_keys) :
    ∃ res, _check_and_fix_contrast colors = some res ∧
      dlookup res k = dlookup colors k := by
  obtain ⟨res, h1, hfr⟩ := check_loop_total_frame colors contrast_pairs colors
  exact ⟨res, h1, hfr k hk⟩

theorem claim5_background_never_modified_witness :
    "editor.background" ∉ foreground_keys ∧
      ∃ res, _check_and_fix_contrast [("editor.background", "#000000")] = some res ∧
        dlookup res "editor.background" =
          dlookup [("editor.background", "#000000")] "editor.background" :=
  ⟨by decide, claim5_background_never_modified [("editor.background", "#000000")]
    "editor.background" (by decide)⟩

theorem adjust_channel_zero : adjust_channel 0 = 0 := by
  show (if ((0 : ℕ) : ℝ) / 255 ≤ 0.03928 then ((0 : ℕ) : ℝ) / 255 / 12.92
    else ((((0 : ℕ) : ℝ) / 255 + 0.055) / 1.055) ^ (2.4 : ℝ)) = 0
  rw [if_pos (by norm_num)]
  norm_num

theorem contrast_black : calculate_contrast_ratio "#000000" "#000000" = some 1 := by
  have hp : hex_to_rgb "#000000" = some (0, 0, 0) := rfl
  have hl := luminance_of_rgb "#000000" 0 0 0 hp
  have hz : (0.2126 : ℝ) * adjust_channel 0 + 0.7152 * adjust_channel 0
      + 0.0722 * adjust_channel 0 = 0 := by
    rw [adjust_channel_zero]
    ring
  rw [hz] at hl
  show (do
    let l1 ← get_luminance "#000000"
    let l2 ← get_luminance "#000000"
    return (max l1 l2 + 0.05) / (min l1 l2 + 0.05) : Option ℝ) = some 1
  rw [hl]
  show some ((max (0 : ℝ) 0 + 0.05) / (min (0 : ℝ) 0 + 0.05)) = some 1
  norm_num

theorem str_isEmpty_false (s : String) (h : s ≠ "") : s.isEmpty = false := by
  unfold String.isEmpty
  simp only [beq_eq_false_iff_ne, ne_eq, String.endPos_eq_zero]
  exact h

theorem fix_pair_hit (colors acc : List (String × String))
    (bgK fgK : String) (minR : ℚ) (bg fg : String)
    (hbgl : dlookup colors bgK = some bg) (hfgl : dlookup colors fgK = some fg)
    (hvb : validate_hex_color bg = true) (hvf : validate_hex_color fg = true)
    (r : ℝ) (hr : calculate_contrast_ratio bg fg = some r)
    (hlt : r < (minR : ℝ)) (hacc : dlookup acc fgK = some fg) :
    ∃ accq, fix_pair colors acc (bgK, fgK, minR) = some accq ∧
      dlookup accq fgK = some (repaired_fg bg fg (minR : ℝ)) := by
  have hv : (validate_hex_color bg && validate_hex_color fg) = true := by
    rw [hvb, hvf]
    rfl
  have hadj := adjust_for_contrast_eq bg fg (minR : ℝ) hvb hvf
  have hred : fix_pair colors acc (bgK, fgK, minR) =
      (if (!(repaired_fg bg fg (minR : ℝ)).isEmpty &&
           decide (repaired_fg bg fg (minR : ℝ) ≠ fg)) = true then
         some (dset acc fgK (repaired_fg bg fg (minR : ℝ)))
       else some acc) := by
    simp only [fix_pair, hbgl, hfgl, hr, hadj]
    rw [if_pos hv, if_pos hlt]
  rw [hred]
  by_cases hne : repaired_fg bg fg (minR : ℝ) = fg
  · have hcondneg : ¬((!(repaired_fg bg fg (minR : ℝ)).isEmpty &&
        decide (repaired_fg bg fg (minR : ℝ) ≠ fg)) = true) := by
      simp [hne]
    rw [if_neg hcondneg]
    refine ⟨acc, rfl, ?_⟩
    rw [hacc, hne]
  · have hwv : validate_hex_color (repaired_fg bg fg (minR : ℝ)) = true :=
      repaired_fg_valid bg fg _ hvf
    have hwne : repaired_fg bg fg (minR : ℝ) ≠ "" := validate_ne_empty _ hwv
    have hcond : (!(repaired_fg bg fg (minR : ℝ)).isEmpty &&
        decide (repaired_fg bg fg (minR : ℝ) ≠ fg)) = true := by
      simp [hne, str_isEmpty_false _ hwne]
    rw [if_pos hcond]
    exact ⟨_, rfl, dlookup_dset_self acc fgK _⟩

theorem check_loop_first_hit (colors : List (String × String))
    (bgK fgK : String) (minR : ℚ) (bg fg : String)
    (hbgl : dlookup colors bgK = some bg) (hfgl : dlookup colors fgK = some fg)
    (hvb : validate_hex_color bg = true) (hvf : validate_hex_color fg = true)
    (r : ℝ) (hr : calculate_contrast_ratio bg fg = some r)
    (hlt : r < (minR : ℝ)) :
    ∀ (ps : List (String × String × ℚ)) (acc : List (String × String)),
      (bgK, fgK, minR) ∈ ps → (ps.map (fun p => p.2.1)).Nodup →
      dlookup acc fgK = some fg →
      ∃ res, check_and_fix_loop colors ps acc = some res ∧
        dlookup res fgK = some (repaired_fg bg fg (minR : ℝ)) := by
  intro ps
  induction ps with
  | nil =>
    intro acc h
    exact absurd h (List.not_mem_nil _)
  | cons p rest ih =>
    intro acc hmem hnd hacc
    rcases List.mem_cons.mp hmem with heq | hmem2
    · subst heq
      obtain ⟨acc1, h1, hl1⟩ :=
        fix_pair_hit colors acc bgK fgK minR bg fg hbgl hfgl hvb hvf r hr hlt hacc
      have hnd2 : (fgK :: rest.map (fun q => q.2.1)).Nodup := by simpa using hnd
      have hnotin : fgK ∉ rest.map (fun q => q.2.1) := (List.nodup_cons.mp hnd2).1
      obtain ⟨res, h2, hfr⟩ := check_loop_total_frame colors rest acc1
      refine ⟨res, ?_, ?_⟩
      · simp only [check_and_fix_loop, h1]
        exact h2
      · rw [hfr fgK hnotin]
        exact hl1
    · obtain ⟨acc1, h1, hfr1⟩ := fix_pair_total_frame colors acc p
      have hnd2 : (p.2.1 :: rest.map (fun q => q.2.1)).Nodup := by simpa using hnd
      have hne : fgK ≠ p.2.1 := by
        intro he
        apply (List.nodup_cons.mp hnd2).1
        rw [← he]
        exact List.mem_map_of_mem _ hmem2
      have hacc1 : dlookup acc1 fgK = some fg := by
        rw [hfr1 fgK hne]
        exact hacc
      obtain ⟨res, h2, hl⟩ := ih acc1 hmem2 (by simpa using (List.nodup_cons.mp hnd2).2) hacc1
      refine ⟨res, ?_, hl⟩
      simp only [check_and_fix_loop, h1]
      exact h2

/-- C1: for every pair of the fixed contrast table whose two keys are
present with valid hex values and whose contrast ratio is below the
minimum, the repair routine raises no error and leaves the foreground
key bound to the first candidate of the brightness scan (steps 10 to 90
by 10, brighter before darker at each step) that meets the minimum
against the unchanged background, and bound to the original foreground
when no scanned candidate meets it. -/
theorem claim1_first_hit_repair (colors : List (String × String))
    (bgK fgK : String) (minR : ℚ)
    (hmem : (bgK, fgK, minR) ∈ contrast_pairs)
    (bg fg : String)
    (hbgl : dlookup colors bgK = some bg) (hfgl : dlookup colors fgK = some fg)
    (hvb : validate_hex_color bg = true) (hvf : validate_hex_color fg = true)
    (r : ℝ) (hr : calculate_contrast_ratio bg fg = some r)
    (hlt : r < (minR : ℝ)) :
    _adjust_for_contrast bg fg (minR : ℝ) = some (repaired_fg bg fg (minR : ℝ)) ∧
      ∃ res, _check_and_fix_contrast colors = some res ∧
        dlookup res fgK = some (repaired_fg bg fg (minR : ℝ)) := by
  refine ⟨adjust_for_contrast_eq bg fg _ hvb hvf, ?_⟩
  have hnd : (contrast_pairs.map (fun p => p.2.1)).Nodup := by decide
  exact check_loop_first_hit colors bgK fgK minR bg fg hbgl hfgl hvb hvf r hr hlt
    contrast_pairs colors hmem hnd hfgl

theorem claim1_first_hit_repair_witness :
    (("editor.background", "editor.foreground", (7 : ℚ)) ∈ contrast_pairs) ∧
    calculate_contrast_ratio "#000000" "#000000" = some 1 ∧
    (1 : ℝ) < ((7 : ℚ) : ℝ) ∧
    (_adjust_for_contrast "#000000" "#000000" ((7 : ℚ) : ℝ) =
        some (repaired_fg "#000000" "#000000" ((7 : ℚ) : ℝ)) ∧
      ∃ res,
        _check_and_fix_contrast
          [("editor.background", "#000000"), ("editor.foreground", "#000000")] = some res ∧
        dlookup res "editor.foreground" =
          some (repaired_fg "#000000" "#000000" ((7 : ℚ) : ℝ))) :=
  ⟨by decide, contrast_black, by norm_num,
    claim1_first_hit_repair
      [("editor.background", "#000000"), ("editor.foreground", "#000000")]
      "editor.background" "editor.foreground" 7 (by decide) "#000000" "#000000"
      rfl rfl (by decide) (by decide) 1 contrast_black (by norm_num)⟩

theorem dmem_iff_mem_keys {α : Type} (m : List (String × α)) (k : String) :
    dmem m k = true ↔ k ∈ m.map Prod.fst := by
  induction m with
  | nil => simp [dmem, dlookup]
  | cons kv rest ih =>
    obtain ⟨k0, v0⟩ := kv
    by_cases h : k0 = k
    · subst h
      simp [dmem, dlookup]
    · show (if k0 = k then some v0 else dlookup rest k).isSome = true ↔
        k ∈ List.map Prod.fst ((k0, v0) :: rest)
      rw [if_neg h]
      show dmem rest k = true ↔ _
      rw [ih]
      simp [Ne.symm h]

theorem dset_keys {α : Type} (m : List (String × α)) (k : String) (v : α) :
    (dset m k v).map Prod.fst =
      if dmem m k = true then m.map Prod.fst else m.map Prod.fst ++ [k] := by
  induction m with
  | nil => simp [dset, dmem, dlookup]
  | cons kv rest ih =>
    obtain ⟨k0, v0⟩ := kv
    by_cases h : k0 = k
    · subst h
      simp [dset, dmem, dlookup]
    · have hmm : dmem ((k0, v0) :: rest) k = dmem rest k := by
        show (if k0 = k then some v0 else dlookup rest k).isSome = _
        rw [if_neg h]
        rfl
      show List.map Prod.fst (if k0 = k then (k0, v) :: rest else (k0, v0) :: dset rest k v) = _
      rw [if_neg h, hmm]
      by_cases h2 : dmem rest k = true
      · rw [if_pos h2]
        simp only [List.map_cons]
        rw [ih, if_pos h2]
      · rw [if_neg h2]
        simp only [List.map_cons]
        rw [ih, if_neg h2]
        rfl

theorem dset_nodup {α : Type} (m : List (String × α)) (k : String) (v : α)
    (h : (m.map Prod.fst).Nodup) : ((dset m k v).map Prod.fst).Nodup := by
  rw [dset_keys]
  by_cases h2 : dmem m k = true
  · rw [if_pos h2]
    exact h
  · rw [if_neg h2]
    have hk : k ∉ m.map Prod.fst := fun hk => h2 ((dmem_iff_mem_keys m k).mpr hk)
    simp [List.nodup_append, h, hk]

theorem dset_append {α : Type} (m : List (String × α)) (k : String) (v : α)
    (h : dmem m k = false) : dset m k v = m ++ [(k, v)] := by
  induction m with
  | nil => rfl
  | cons kv rest ih =>
    obtain ⟨k0, v0⟩ := kv
    have h0 : ¬ k0 = k := by
      intro he
      subst he
      simp [dmem, dlookup] at h
    show (if k0 = k then (k0, v) :: rest else (k0, v0) :: dset rest k v) = _
    rw [if_neg h0]
    have h2 : dmem rest k = false := by
      simpa [dmem, dlookup, h0] using h
    rw [ih h2]
    rfl

theorem dmem_append {α : Type} (l1 l2 : List (String × α)) (k : String) :
    dmem (l1 ++ l2) k = (dmem l1 k || dmem l2 k) := by
  induction l1 with
  | nil => simp [dmem, dlookup]
  | cons kv rest ih =>
    obtain ⟨k0, v0⟩ := kv
    by_cases h : k0 = k
    · subst h
      simp [dmem, dlookup]
    · simp only [List.cons_append]
      show (if k0 = k then some v0 else dlookup (rest ++ l2) k).isSome = _
      rw [if_neg h]
      show dmem (rest ++ l2) k = _
      rw [ih]
      show _ = ((if k0 = k then some v0 else dlookup rest k).isSome || dmem l2 k)
      rw [if_neg h]
      rfl

theorem upChar_table_stable : ∀ p ∈ lowerUpper, upChar p.2 = p.2 := by decide

theorem upChar_upChar (c : Char) : upChar (upChar c) = upChar c := by
  cases hf : lowerUpper.find? (fun p => p.1 == c) with
  | none =>
    have h1 : upChar c = c := by
      unfold upChar
      rw [hf]
    rw [h1]
    exact h1
  | some p =>
    have h1 : upChar c = p.2 := by
      unfold upChar
      rw [hf]
    rw [h1]
    exact upChar_table_stable p (List.mem_of_find?_eq_some hf)

theorem map_upChar_idem (l : List Char) : (l.map upChar).map upChar = l.map upChar := by
  rw [List.map_map]
  have h : upChar ∘ upChar = upChar := funext upChar_upChar
  rw [h]

theorem str_eta (s : String) (l : List Char) (h : s.data = l) : s = ⟨l⟩ := by
  cases s
  exact congrArg String.mk h

theorem matchHexN_length (cs : List Char) (n : Nat) (h : matchHexN cs n = true) :
    cs.length = n ∨ cs.length = n + 1 := by
  rw [matchHexN_iff] at h
  obtain ⟨t, rest, hcs, hlen, _, hrest⟩ := h
  subst hcs
  rcases hrest with h0 | h0 <;> subst h0 <;> simp [hlen]

theorem fix_colors_loop_cons_str (key : String) (value : String)
    (rest acc : List (String × Val)) :
    fix_colors_loop ((key, Val.str value) :: rest) acc =
      (if value.data.head? = some '#' then
        (if (value.data.tail.map upChar).length = 3 then
          fix_colors_loop rest
            (dset acc key (.str ⟨'#' :: joinDoubled (value.data.tail.map upChar)⟩))
        else if (value.data.tail.map upChar).length = 6 ∨
            (value.data.tail.map upChar).length = 8 then
          fix_colors_loop rest (dset acc key (.str ⟨'#' :: value.data.tail.map upChar⟩))
        else fix_colors_loop rest acc)
      else
        (if matchHexN value.data 6 then
          fix_colors_loop rest (dset acc key (.str ⟨'#' :: value.data.map upChar⟩))
        else fix_colors_loop rest acc)) := rfl

theorem data_eq_cons_of_head (s : String) (c : Char) (h : s.data.head? = some c) :
    s.data = c :: s.data.tail := by
  cases hd : s.data with
  | nil =>
    rw [hd] at h
    exact absurd h (by simp)
  | cons c0 t =>
    rw [hd] at h
    have h2 : c0 = c := by simpa using h
    subst h2
    rfl

theorem fix_colors_loop_cons_68 (key : String) (s : String)
    (rest acc : List (String × Val))
    (hh : s.data.head? = some '#') (hl : s.data.tail.length = 6 ∨ s.data.tail.length = 8) :
    fix_colors_loop ((key, Val.str s) :: rest) acc =
      fix_colors_loop rest (dset acc key (.str ⟨'#' :: s.data.tail.map upChar⟩)) := by
  rw [fix_colors_loop_cons_str, if_pos hh]
  have h3 : ¬ (s.data.tail.map upChar).length = 3 := by
    rw [List.length_map]
    rcases hl with h | h <;> omega
  rw [if_neg h3]
  have h68 : (s.data.tail.map upChar).length = 6 ∨ (s.data.tail.map upChar).length = 8 := by
    rw [List.length_map]
    exact hl
  rw [if_pos h68]

theorem fix_colors_loop_cons_7 (key : String) (s : String)
    (rest acc : List (String × Val))
    (hh : s.data.head? = some '#') (hl : s.data.tail.length = 7) :
    fix_colors_loop ((key, Val.str s) :: rest) acc = fix_colors_loop rest acc := by
  rw [fix_colors_loop_cons_str, if_pos hh]
  have h3 : ¬ (s.data.tail.map upChar).length = 3 := by
    rw [List.length_map]
    omega
  rw [if_neg h3]
  have h68 : ¬ ((s.data.tail.map upChar).length = 6 ∨ (s.data.tail.map upChar).length = 8) := by
    rw [List.length_map]
    omega
  rw [if_neg h68]

theorem fix_colors_loop_cons_68up (key : String) (s : String)
    (rest acc : List (String × Val))
    (hh : s.data.head? = some '#') (hl : s.data.tail.length = 6 ∨ s.data.tail.length = 8)
    (hst : s.data.map upChar = s.data) :
    fix_colors_loop ((key, Val.str s) :: rest) acc =
      fix_colors_loop rest (dset acc key (Val.str s)) := by
  rw [fix_colors_loop_cons_68 key s rest acc hh hl]
  have hdata : s.data = '#' :: s.data.tail := data_eq_cons_of_head s '#' hh
  have h5 : ('#' :: s.data.tail).map upChar = '#' :: s.data.tail := by
    rw [← hdata]
    exact hst
  have hhash : upChar '#' = '#' := rfl
  rw [List.map_cons, hhash] at h5
  have htail : s.data.tail.map upChar = s.data.tail := by
    injection h5
  rw [htail]
  have hs : (⟨'#' :: s.data.tail⟩ : String) = s := (str_eta s _ hdata).symm
  rw [hs]

theorem fix_colors_loop_inv (P : List (String × Val) → Prop)
    (hdset : ∀ (acc : List (String × Val)) (key : String) (X : List Char), P acc →
      ((∃ t : List Char, X = joinDoubled (t.map upChar) ∧ (t.map upChar).length = 3) ∨
       (∃ t : List Char, X = t.map upChar ∧
         ((t.map upChar).length = 6 ∨ (t.map upChar).length = 8)) ∨
       (∃ d : List Char, X = d.map upChar ∧ matchHexN d 6 = true)) →
      P (dset acc key (Val.str ⟨'#' :: X⟩))) :
    ∀ (m : List (String × Val)) (acc : List (String × Val)),
      P acc → P (fix_colors_loop m acc) := by
  intro m
  induction m with
  | nil =>
    intro acc h
    exact h
  | cons kv rest ih =>
    intro acc hP
    obtain ⟨key, v⟩ := kv
    cases v with
    | str value =>
      rw [fix_colors_loop_cons_str]
      by_cases hh : value.data.head? = some '#'
      · rw [if_pos hh]
        by_cases h3 : (value.data.tail.map upChar).length = 3
        · rw [if_pos h3]
          exact ih _ (hdset acc key _ hP (Or.inl ⟨value.data.tail, rfl, h3⟩))
        · rw [if_neg h3]
          by_cases h68 : (value.data.tail.map upChar).length = 6 ∨
              (value.data.tail.map upChar).length = 8
          · rw [if_pos h68]
            exact ih _ (hdset acc key _ hP (Or.inr (Or.inl ⟨value.data.tail, rfl, h68⟩)))
          · rw [if_neg h68]
            exact ih _ hP
      · rw [if_neg hh]
        by_cases hb : matchHexN value.data 6 = true
        · rw [if_pos hb]
          exact ih _ (hdset acc key _ hP (Or.inr (Or.inr ⟨value.data, rfl, hb⟩)))
        · rw [if_neg hb]
          exact ih _ hP
    | int n => exact ih _ hP
    | list xs => exact ih _ hP
    | dict kvs => exact ih _ hP
    | null => exact ih _ hP

theorem fix_colors_loop_inv68 (P : List (String × Val) → Prop)
    (hdset : ∀ (acc : List (String × Val)) (key : String) (t : List Char), P acc →
      (t.length = 6 ∨ t.length = 8) → P (dset acc key (Val.str ⟨'#' :: t.map upChar⟩))) :
    ∀ (m : List (String × Val)) (acc : List (String × Val)),
      (∀ kv ∈ m, tail678 kv.2) → P acc → P (fix_colors_loop m acc) := by
  intro m
  induction m with
  | nil =>
    intro acc _ h
    exact h
  | cons kv rest ih =>
    intro acc hm hP
    obtain ⟨key, v⟩ := kv
    have hv : tail678 v := hm (key, v) (List.mem_cons_self _ _)
    obtain ⟨s, hvs, hh, hl⟩ := hv
    subst hvs
    have hrest : ∀ kv ∈ rest, tail678 kv.2 := fun kv hk => hm kv (List.mem_cons_of_mem _ hk)
    rcases hl with h6 | h7 | h8
    · rw [fix_colors_loop_cons_68 key s rest acc hh (Or.inl h6)]
      exact ih _ hrest (hdset acc key s.data.tail hP (Or.inl h6))
    · rw [fix_colors_loop_cons_7 key s rest acc hh h7]
      exact ih _ hrest hP
    · rw [fix_colors_loop_cons_68 key s rest acc hh (Or.inr h8)]
      exact ih _ hrest (hdset acc key s.data.tail hP (Or.inr h8))

theorem fix_colors_loop_mem (k : String) :
    ∀ (m : List (String × Val)) (acc : List (String × Val)),
      (∀ kv ∈ m, tail68 kv.2) →
      (dmem m k = true ∨ dmem acc k = true) →
      dmem (fix_colors_loop m acc) k = true := by
  intro m
  induction m with
  | nil =>
    intro acc _ h
    rcases h with h | h
    · simp [dmem, dlookup] at h
    · exact h
  | cons kv rest ih =>
    intro acc hm h
    obtain ⟨key, v⟩ := kv
    have hv : tail68 v := hm (key, v) (List.mem_cons_self _ _)
    obtain ⟨s, hvs, hh, hl⟩ := hv
    subst hvs
    have hrest : ∀ kv ∈ rest, tail68 kv.2 := fun kv hk => hm kv (List.mem_cons_of_mem _ hk)
    rw [fix_colors_loop_cons_68 key s rest acc hh hl]
    apply ih _ hrest
    by_cases hk : key = k
    · subst hk
      right
      exact dmem_dset_self acc key _
    · rcases h with h | h
      · left
        have hmm : dmem ((key, Val.str s) :: rest) k = dmem rest k := by
          show (if key = k then some (Val.str s) else dlookup rest k).isSome = _
          rw [if_neg hk]
          rfl
        rw [hmm] at h
        exact h
      · right
        exact dmem_dset_mono acc key k _ h

theorem fix_colors_loop_rebuild :
    ∀ (m : List (String × Val)) (acc : List (String × Val)),
      (∀ kv ∈ m, tail68up kv.2) → (m.map Prod.fst).Nodup →
      (∀ kv ∈ m, dmem acc kv.1 = false) →
      fix_colors_loop m acc = acc ++ m := by
  intro m
  induction m with
  | nil =>
    intro acc _ _ _
    simp [fix_colors_loop]
  | cons kv rest ih =>
    intro acc hm hnd hdis
    obtain ⟨key, v⟩ := kv
    have hv : tail68up v := hm (key, v) (List.mem_cons_self _ _)
    obtain ⟨s, hvs, hh, hl, hst⟩ := hv
    subst hvs
    have hrest : ∀ kv ∈ rest, tail68up kv.2 := fun kv hk => hm kv (List.mem_cons_of_mem _ hk)
    rw [fix_colors_loop_cons_68up key s rest acc hh hl hst]
    have hda : dmem acc key = false := hdis (key, Val.str s) (List.mem_cons_self _ _)
    rw [dset_append acc key _ hda]
    have hnd2 : (rest.map Prod.fst).Nodup := by
      simp only [List.map_cons] at hnd
      exact (List.nodup_cons.mp hnd).2
    have hkey : key ∉ rest.map Prod.fst := by
      simp only [List.map_cons] at hnd
      exact (List.nodup_cons.mp hnd).1
    have hdis2 : ∀ kv ∈ rest, dmem (acc ++ [(key, Val.str s)]) kv.1 = false := by
      intro kv hk
      rw [dmem_append]
      have h1 : dmem acc kv.1 = false := hdis kv (List.mem_cons_of_mem _ hk)
      have h2 : dmem [(key, Val.str s)] kv.1 = false := by
        have hne : ¬ key = kv.1 := by
          intro he
          apply hkey
          rw [he]
          exact List.mem_map_of_mem _ hk
        show (if key = kv.1 then some (Val.str s) else dlookup [] kv.1).isSome = false
        rw [if_neg hne]
        rfl
      rw [h1, h2]
      rfl
    rw [ih _ hrest hnd2 hdis2]
    simp

theorem fold_defaults_inv (P : List (String × Val) → Prop)
    (hd : ∀ (acc : List (String × Val)) (key : String), P acc →
      P (dset acc key (Val.str (_get_default_color_for_key key)))) :
    ∀ (keys : List String) (acc : List (String × Val)), P acc →
      P (keys.foldl (fun acc key =>
        if dmem acc key then acc
        else dset acc key (Val.str (_get_default_color_for_key key))) acc) := by
  intro keys
  induction keys with
  | nil =>
    intro acc h
    exact h
  | cons key keys ih =>
    intro acc hP
    simp only [List.foldl_cons]
    by_cases hk : dmem acc key = true
    · rw [if_pos hk]
      exact ih acc hP
    · rw [if_neg hk]
      exact ih _ (hd acc key hP)

theorem fold_defaults_mem :
    ∀ (keys : List String) (acc : List (String × Val)) (k : String),
      (k ∈ keys ∨ dmem acc k = true) →
      dmem (keys.foldl (fun acc key =>
        if dmem acc key then acc
        else dset acc key (Val.str (_get_default_color_for_key key))) acc) k = true := by
  intro keys
  induction keys with
  | nil =>
    intro acc k h
    rcases h with h | h
    · exact absurd h (List.not_mem_nil k)
    · exact h
  | cons key keys ih =>
    intro acc k h
    simp only [List.foldl_cons]
    by_cases hk : dmem acc key = true
    · rw [if_pos hk]
      apply ih
      rcases h with h | h
      · rcases List.mem_cons.mp h with he | hm
        · subst he
          right
          exact hk
        · left
          exact hm
      · right
        exact h
    · rw [if_neg hk]
      apply ih
      rcases h with h | h
      · rcases List.mem_cons.mp h with he | hm
        · subst he
          right
          exact dmem_dset_self acc k _
        · left
          exact hm
      · right
        exact dmem_dset_mono acc key k _ h

theorem fold_defaults_id :
    ∀ (keys : List String) (acc : List (String × Val)),
      (∀ k ∈ keys, dmem acc k = true) →
      keys.foldl (fun acc key =>
        if dmem acc key then acc
        else dset acc key (Val.str (_get_default_color_for_key key))) acc = acc := by
  intro keys
  induction keys with
  | nil =>
    intro acc _
    rfl
  | cons key keys ih =>
    intro acc h
    simp only [List.foldl_cons]
    rw [if_pos (h key (List.mem_cons_self _ _))]
    exact ih acc (fun k hk => h k (List.mem_cons_of_mem _ hk))

theorem default_color_shape (k : String) :
    (_get_default_color_for_key k).data.head? = some '#' ∧
      (_get_default_color_for_key k).data.tail.length = 6 := by
  unfold _get_default_color_for_key
  cases hdl : dlookup _get_minimal_required_colors k with
  | some c =>
    have hm := dlookup_mem _ _ _ hdl
    have hall : ∀ p ∈ _get_minimal_required_colors,
        p.2.data.head? = some '#' ∧ p.2.data.tail.length = 6 := by decide
    exact hall _ hm
  | none =>
    show ((if containsSub "background".data k.data then ("#1e1e1e" : String)
        else if containsSub "foreground".data k.data then "#d4d4d4"
        else "#808080").data.head? = some '#') ∧
      ((if containsSub "background".data k.data then ("#1e1e1e" : String)
        else if containsSub "foreground".data k.data then "#d4d4d4"
        else "#808080").data.tail.length = 6)
    by_cases h1 : containsSub "background".data k.data = true
    · rw [if_pos h1]
      exact ⟨rfl, rfl⟩
    · rw [if_neg h1]
      by_cases h2 : containsSub "foreground".data k.data = true
      · rw [if_pos h2]
        exact ⟨rfl, rfl⟩
      · rw [if_neg h2]
        exact ⟨rfl, rfl⟩

theorem tail68_default (k : String) : tail68 (Val.str (_get_default_color_for_key k)) := by
  obtain ⟨h1, h2⟩ := default_color_shape k
  exact ⟨_, rfl, h1, Or.inl h2⟩

theorem tail678_of_68 (v : Val) (h : tail68 v) : tail678 v := by
  obtain ⟨s, h1, h2, h3⟩ := h
  refine ⟨s, h1, h2, ?_⟩
  rcases h3 with h | h
  · left
    exact h
  · right
    right
    exact h

theorem tail68_of_68up (v : Val) (h : tail68up v) : tail68 v := by
  obtain ⟨s, h1, h2, h3, _⟩ := h
  exact ⟨s, h1, h2, h3⟩

theorem fix_colors_nodup (c : List (String × Val)) :
    ((_fix_colors c).map Prod.fst).Nodup := by
  unfold _fix_colors
  apply fold_defaults_inv (fun acc => (acc.map Prod.fst).Nodup)
    (fun acc key hP => dset_nodup acc key _ hP)
  apply fix_colors_loop_inv (fun acc => (acc.map Prod.fst).Nodup)
    (fun acc key X hP _ => dset_nodup acc key _ hP)
  simp

theorem fix_colors_required (c : List (String × Val)) :
    ∀ k ∈ REQUIRED_COLOR_KEYS, dmem (_fix_colors c) k = true := by
  intro k hk
  unfold _fix_colors
  exact fold_defaults_mem REQUIRED_COLOR_KEYS _ k (Or.inl hk)

theorem fix_colors_tail678 (c : List (String × Val)) :
    colorsShape tail678 (_fix_colors c) := by
  refine ⟨?_, fix_colors_nodup c, fix_colors_required c⟩
  unfold _fix_colors
  apply fold_defaults_inv (fun acc => ∀ kv ∈ acc, tail678 kv.2)
    (fun acc key hP =>
      dset_forall _ acc key _ hP (tail678_of_68 _ (tail68_default key)))
  apply fix_colors_loop_inv (fun acc => ∀ kv ∈ acc, tail678 kv.2)
  · intro acc key X hP hX
    apply dset_forall _ acc key _ hP
    refine ⟨⟨'#' :: X⟩, rfl, rfl, ?_⟩
    show X.length = 6 ∨ X.length = 7 ∨ X.length = 8
    rcases hX with ⟨t, hXe, hlen⟩ | ⟨t, hXe, hlen⟩ | ⟨d, hXe, hmm⟩
    · subst hXe
      left
      rw [joinDoubled_length, hlen]
    · subst hXe
      rcases hlen with h | h
      · left
        exact h
      · right
        right
        exact h
    · subst hXe
      rw [List.length_map]
      rcases matchHexN_length d 6 hmm with h | h
      · left
        exact h
      · right
        left
        exact h
  · intro kv hkv
    exact absurd hkv (List.not_mem_nil kv)

theorem fix_colors_tail68 (c : List (String × Val)) (hc : colorsShape tail678 c) :
    colorsShape tail68 (_fix_colors c) := by
  obtain ⟨hval, _, _⟩ := hc
  refine ⟨?_, fix_colors_nodup c, fix_colors_required c⟩
  unfold _fix_colors
  apply fold_defaults_inv (fun acc => ∀ kv ∈ acc, tail68 kv.2)
    (fun acc key hP => dset_forall _ acc key _ hP (tail68_default key))
  apply fix_colors_loop_inv68 (fun acc => ∀ kv ∈ acc, tail68 kv.2) ?_ c [] hval
  · intro kv hkv
    exact absurd hkv (List.not_mem_nil kv)
  · intro acc key t hP hl
    apply dset_forall _ acc key _ hP
    refine ⟨_, rfl, rfl, ?_⟩
    show (t.map upChar).length = 6 ∨ (t.map upChar).length = 8
    rw [List.length_map]
    exact hl

theorem fix_colors_tail68up (c : List (String × Val)) (hc : colorsShape tail68 c) :
    _fix_colors c = fix_colors_loop c [] ∧ colorsShape tail68up (_fix_colors c) := by
  obtain ⟨hval, hnd, hreq⟩ := hc
  have hv678 : ∀ kv ∈ c, tail678 kv.2 := fun kv h => tail678_of_68 _ (hval kv h)
  have hloop : ∀ kv ∈ fix_colors_loop c [], tail68up kv.2 := by
    apply fix_colors_loop_inv68 (fun acc => ∀ kv ∈ acc, tail68up kv.2) ?_ c [] hv678
    · intro kv hkv
      exact absurd hkv (List.not_mem_nil kv)
    · intro acc key t hP hl
      apply dset_forall _ acc key _ hP
      refine ⟨_, rfl, rfl, ?_, ?_⟩
      · show (t.map upChar).length = 6 ∨ (t.map upChar).length = 8
        rw [List.length_map]
        exact hl
      · show ('#' :: t.map upChar).map upChar = '#' :: t.map upChar
        rw [List.map_cons, map_upChar_idem]
        rfl
  have hloopmem : ∀ k ∈ REQUIRED_COLOR_KEYS, dmem (fix_colors_loop c []) k = true :=
    fun k hk => fix_colors_loop_mem k c [] hval (Or.inl (hreq k hk))
  have hid : _fix_colors c = fix_colors_loop c [] := by
    unfold _fix_colors
    exact fold_defaults_id REQUIRED_COLOR_KEYS _ hloopmem
  refine ⟨hid, ?_⟩
  rw [hid]
  refine ⟨hloop, ?_, hloopmem⟩
  apply fix_colors_loop_inv (fun acc => (acc.map Prod.fst).Nodup)
    (fun acc key X hP _ => dset_nodup acc key _ hP)
  simp

theorem fix_colors_id (c : List (String × Val)) (hc : colorsShape tail68up c) :
    _fix_colors c = c := by
  obtain ⟨hval, hnd, hreq⟩ := hc
  have hreb : fix_colors_loop c [] = c := by
    rw [fix_colors_loop_rebuild c [] hval hnd (fun kv _ => rfl)]
    rfl
  unfold _fix_colors
  rw [hreb]
  exact fold_defaults_id REQUIRED_COLOR_KEYS c hreq

theorem dlookup_append {α : Type} (l1 l2 : List (String × α)) (k : String) :
    dlookup (l1 ++ l2) k = (dlookup l1 k).or (dlookup l2 k) := by
  induction l1 with
  | nil => simp [dlookup, Option.or]
  | cons kv rest ih =>
    obtain ⟨k0, v0⟩ := kv
    by_cases h : k0 = k
    · subst h
      simp [dlookup, Option.or]
    · simp only [List.cons_append]
      show (if k0 = k then some v0 else dlookup (rest ++ l2) k) = _
      rw [if_neg h, ih]
      show _ = (if k0 = k then some v0 else dlookup rest k).or (dlookup l2 k)
      rw [if_neg h]

theorem token_settings_eq (t : List (String × Val)) (sd : List (String × Val))
    (hsd : dlookup t "settings" = some (Val.dict sd)) :
    token_settings t =
      (match dlookup sd "foreground" with
       | some (.str fg) =>
         if validate_hex_color fg then [("foreground", Val.str fg)] else []
       | _ => []) ++
      (match dlookup sd "fontStyle" with
       | some v => [("fontStyle", v)]
       | none => []) ++
      (match dlookup sd "background" with
       | some v => [("background", v)]
       | none => []) := by
  unfold token_settings
  rw [hsd]

theorem token_settings_canon (t : List (String × Val)) :
    ∃ F G B, token_settings t = F ++ G ++ B ∧
      (F = [] ∨ ∃ fg : String, F = [("foreground", Val.str fg)] ∧
        validate_hex_color fg = true) ∧
      (G = [] ∨ ∃ v, G = [("fontStyle", v)]) ∧
      (B = [] ∨ ∃ v, B = [("background", v)]) := by
  cases hsd : dlookup t "settings" with
  | none =>
    refine ⟨[], [], [], ?_, Or.inl rfl, Or.inl rfl, Or.inl rfl⟩
    unfold token_settings
    rw [hsd]
    rfl
  | some sv =>
    cases sv with
    | dict sd =>
      refine ⟨(match dlookup sd "foreground" with
               | some (.str fg) =>
                 if validate_hex_color fg then [("foreground", Val.str fg)] else []
               | _ => []),
              (match dlookup sd "fontStyle" with
               | some v => [("fontStyle", v)]
               | none => []),
              (match dlookup sd "background" with
               | some v => [("background", v)]
               | none => []), token_settings_eq t sd hsd, ?_, ?_, ?_⟩
      · cases hf : dlookup sd "foreground" with
        | none => exact Or.inl rfl
        | some fv =>
          cases fv with
          | str fg =>
            by_cases hval : validate_hex_color fg = true
            · refine Or.inr ⟨fg, ?_, hval⟩
              show (if validate_hex_color fg then [("foreground", Val.str fg)]
                else ([] : List (String × Val))) = _
              rw [if_pos hval]
            · left
              show (if validate_hex_color fg then [("foreground", Val.str fg)]
                else ([] : List (String × Val))) = _
              rw [if_neg hval]
          | int n => exact Or.inl rfl
          | list xs => exact Or.inl rfl
          | dict d => exact Or.inl rfl
          | null => exact Or.inl rfl
      · cases hg : dlookup sd "fontStyle" with
        | none => exact Or.inl rfl
        | some v => exact Or.inr ⟨v, rfl⟩
      · cases hb : dlookup sd "background" with
        | none => exact Or.inl rfl
        | some v => exact Or.inr ⟨v, rfl⟩
    | str s =>
      refine ⟨[], [], [], ?_, Or.inl rfl, Or.inl rfl, Or.inl rfl⟩
      unfold token_settings
      rw [hsd]
      rfl
    | int n =>
      refine ⟨[], [], [], ?_, Or.inl rfl, Or.inl rfl, Or.inl rfl⟩
      unfold token_settings
      rw [hsd]
      rfl
    | list xs =>
      refine ⟨[], [], [], ?_, Or.inl rfl, Or.inl rfl, Or.inl rfl⟩
      unfold token_settings
      rw [hsd]
      rfl
    | null =>
      refine ⟨[], [], [], ?_, Or.inl rfl, Or.inl rfl, Or.inl rfl⟩
      unfold token_settings
      rw [hsd]
      rfl

theorem token_settings_refix (U : List (String × Val)) (S : List (String × Val))
    (hU : dlookup U "settings" = some (Val.dict S))
    (F G B : List (String × Val)) (hS : S = F ++ G ++ B)
    (hF : F = [] ∨ ∃ fg : String, F = [("foreground", Val.str fg)] ∧
      validate_hex_color fg = true)
    (hG : G = [] ∨ ∃ v, G = [("fontStyle", v)])
    (hB : B = [] ∨ ∃ v, B = [("background", v)]) :
    token_settings U = S := by
  have hlfG : dlookup G "foreground" = none := by
    rcases hG with h | ⟨v, h⟩ <;> subst h <;> rfl
  have hlfB : dlookup B "foreground" = none := by
    rcases hB with h | ⟨v, h⟩ <;> subst h <;> rfl
  have hlsF : dlookup F "fontStyle" = none := by
    rcases hF with h | ⟨fg, h, _⟩ <;> subst h <;> rfl
  have hlsB : dlookup B "fontStyle" = none := by
    rcases hB with h | ⟨v, h⟩ <;> subst h <;> rfl
  have hlbF : dlookup F "background" = none := by
    rcases hF with h | ⟨fg, h, _⟩ <;> subst h <;> rfl
  have hlbG : dlookup G "background" = none := by
    rcases hG with h | ⟨v, h⟩ <;> subst h <;> rfl
  have hfg2 : (match dlookup S "foreground" with
      | some (.str fg) =>
        if validate_hex_color fg then [("foreground", Val.str fg)] else []
      | _ => ([] : List (String × Val))) = F := by
    rcases hF with hFe | ⟨fg, hFe, hval⟩
    · have hlf : dlookup S "foreground" = none := by
        rw [hS, hFe, dlookup_append, dlookup_append, hlfG, hlfB]
        rfl
      rw [hlf, hFe]
    · have hlf : dlookup S "foreground" = some (Val.str fg) := by
        rw [hS, hFe]
        show (if "foreground" = "foreground" then some (Val.str fg)
          else dlookup (G ++ B) "foreground") = some (Val.str fg)
        rw [if_pos rfl]
      rw [hlf]
      show (if validate_hex_color fg then [("foreground", Val.str fg)]
        else ([] : List (String × Val))) = F
      rw [if_pos hval, hFe]
  have hfs2 : (match dlookup S "fontStyle" with
      | some v => [("fontStyle", v)]
      | none => ([] : List (String × Val))) = G := by
    rcases hG with hGe | ⟨v, hGe⟩
    · have hls : dlookup S "fontStyle" = none := by
        rw [hS, hGe, dlookup_append, dlookup_append, hlsF, hlsB]
        rfl
      rw [hls, hGe]
    · have hls : dlookup S "fontStyle" = some v := by
        rw [hS, hGe, dlookup_append, dlookup_append, hlsF]
        rfl
      rw [hls, hGe]
  have hbg2 : (match dlookup S "background" with
      | some v => [("background", v)]
      | none => ([] : List (String × Val))) = B := by
    rcases hB with hBe | ⟨v, hBe⟩
    · have hlb : dlookup S "background" = none := by
        rw [hS, hBe, dlookup_append, dlookup_append, hlbF, hlbG]
        rfl
      rw [hlb, hBe]
    · have hlb : dlookup S "background" = some v := by
        rw [hS, hBe, dlookup_append, dlookup_append, hlbF, hlbG]
        rfl
      rw [hlb, hBe]
  obtain ⟨sd2, hsd2⟩ : ∃ sd2, dlookup U "settings" = some (Val.dict sd2) := ⟨S, hU⟩
  rw [token_settings_eq U S hU, hfg2, hfs2, hbg2]
  exact hS.symm

theorem fix_token_self (xs : List Val) (S : List (String × Val))
    (hSne : ¬ S.isEmpty = true)
    (F G B : List (String × Val)) (hS : S = F ++ G ++ B)
    (hF : F = [] ∨ ∃ fg : String, F = [("foreground", Val.str fg)] ∧
      validate_hex_color fg = true)
    (hG : G = [] ∨ ∃ v, G = [("fontStyle", v)])
    (hB : B = [] ∨ ∃ v, B = [("background", v)])
    (nameOpt : List (String × Val))
    (hnm : (match dlookup nameOpt "name" with
            | some nv => [("name", nv)]
            | none => ([] : List (String × Val))) = nameOpt) :
    fix_token (Val.dict ([("scope", Val.list xs), ("settings", Val.dict S)] ++ nameOpt)) =
      some (Val.dict ([("scope", Val.list xs), ("settings", Val.dict S)] ++ nameOpt)) := by
  have hU : dlookup ([("scope", Val.list xs), ("settings", Val.dict S)] ++ nameOpt)
      "settings" = some (Val.dict S) := by
    show (if "scope" = "settings" then some (Val.list xs)
      else if "settings" = "settings" then some (Val.dict S)
      else dlookup nameOpt "settings") = some (Val.dict S)
    rw [if_neg (by decide), if_pos rfl]
  have h3 : token_settings ([("scope", Val.list xs), ("settings", Val.dict S)] ++ nameOpt)
      = S := token_settings_refix _ S hU F G B hS hF hG hB
  have h1 : dlookup ([("scope", Val.list xs), ("settings", Val.dict S)] ++ nameOpt)
      "scope" = some (Val.list xs) := by
    show (if "scope" = "scope" then some (Val.list xs) else _) = _
    rw [if_pos rfl]
  have hnm2 : dlookup ([("scope", Val.list xs), ("settings", Val.dict S)] ++ nameOpt)
      "name" = dlookup nameOpt "name" := by
    show (if "scope" = "name" then some (Val.list xs)
      else if "settings" = "name" then some (Val.dict S)
      else dlookup nameOpt "name") = _
    rw [if_neg (by decide), if_neg (by decide)]
  have h2 : token_scope (Val.list xs) = some (Val.list xs) := rfl
  unfold fix_token
  simp only [h1, h2, h3, hnm2, hnm]
  rw [if_neg hSne]

theorem fix_token_out (t u : Val) (h : fix_token t = some u) : fix_token u = some u := by
  cases t with
  | str s => exact Option.noConfusion h
  | int n => exact Option.noConfusion h
  | list xs => exact Option.noConfusion h
  | null => exact Option.noConfusion h
  | dict td =>
    have h0 : (match dlookup td "scope" with
      | some sv =>
        match token_scope sv with
        | some scopeVal =>
          if (token_settings td).isEmpty = true then none
          else
            some (Val.dict
              ([("scope", scopeVal), ("settings", Val.dict (token_settings td))] ++
                match dlookup td "name" with
                | some nv => [("name", nv)]
                | none => []))
        | none => none
      | none => none) = some u := h
    clear h
    cases hsc : dlookup td "scope" with
    | none =>
      rw [hsc] at h0
      exact Option.noConfusion h0
    | some sv =>
      simp only [hsc] at h0
      cases hts : token_scope sv with
      | none =>
        rw [hts] at h0
        exact Option.noConfusion h0
      | some scopeVal =>
        simp only [hts] at h0
        obtain ⟨xs, hxse⟩ : ∃ xs, scopeVal = Val.list xs := by
          cases sv with
          | str s =>
            refine ⟨[Val.str s], ?_⟩
            have : (some (Val.list [Val.str s]) : Option Val) = some scopeVal := hts
            injection this with h5
            exact h5.symm
          | list ys =>
            refine ⟨ys, ?_⟩
            have : (some (Val.list ys) : Option Val) = some scopeVal := hts
            injection this with h5
            exact h5.symm
          | int n => exact Option.noConfusion hts
          | dict d => exact Option.noConfusion hts
          | null => exact Option.noConfusion hts
        subst hxse
        by_cases he : (token_settings td).isEmpty = true
        · rw [if_pos he] at h0
          exact Option.noConfusion h0
        · rw [if_neg he] at h0
          injection h0 with h2
          subst h2
          obtain ⟨F, G, B, hS, hF, hG, hB⟩ := token_settings_canon td
          cases hn : dlookup td "name" with
          | none =>
            have := fix_token_self xs (token_settings td) he F G B hS hF hG hB [] rfl
            simpa [hn] using this
          | some nv =>
            have := fix_token_self xs (token_settings td) he F G B hS hF hG hB
              [("name", nv)] rfl
            simpa [hn] using this

theorem filterMap_self {α : Type} (f : α → Option α) (l : List α)
    (h : ∀ u ∈ l, f u = some u) : l.filterMap f = l := by
  induction l with
  | nil => rfl
  | cons a l ih =>
    simp only [List.filterMap_cons, h a (List.mem_cons_self a l)]
    rw [ih (fun u hu => h u (List.mem_cons_of_mem _ hu))]

theorem tokens_out_stable (ts : List Val) : tokensStable (ts.filterMap fix_token) := by
  intro u hu
  rw [List.mem_filterMap] at hu
  obtain ⟨t, _, ht⟩ := hu
  exact fix_token_out t u ht

theorem if_dset_mem_self (m : List (String × Val)) (key : String) (v : Val) :
    dmem (if dmem m key then m else dset m key v) key = true := by
  by_cases h : dmem m key = true
  · rw [if_pos h]
    exact h
  · rw [if_neg h]
    exact dmem_dset_self m key v

theorem if_dset_mem_mono (m : List (String × Val)) (key k : String) (v : Val)
    (h : dmem m k = true) :
    dmem (if dmem m key then m else dset m key v) k = true := by
  by_cases h0 : dmem m key = true
  · rw [if_pos h0]
    exact h
  · rw [if_neg h0]
    exact dmem_dset_mono m key k v h

theorem fix_theme_data_eq (td0 N M D V td5 : List (String × Val))
    (hN : (if dmem td0 "name" then td0 else dset td0 "name" (Val.str "unnamed_theme")) = N)
    (hM : fix_display_name N = Except.ok M)
    (hD : (if dmem M "description" then M
       else dset M "description" (Val.str "A custom VS Code theme")) = D)
    (hV : (if dmem D "version" then D else dset D "version" (Val.str "1.0.0")) = V)
    (hC : fix_colors_step V = Except.ok td5) :
    fix_theme_data td0 = Except.ok (fix_token_step td5) := by
  simp only [fix_theme_data, hN, hM, hD, hV, hC, except_bind_ok]
  rfl

theorem fix_theme_data_err_display (td0 N : List (String × Val)) (e : String)
    (hN : (if dmem td0 "name" then td0 else dset td0 "name" (Val.str "unnamed_theme")) = N)
    (hM : fix_display_name N = Except.error e) :
    fix_theme_data td0 = Except.error e := by
  simp only [fix_theme_data, hN, hM]
  rfl

theorem fix_theme_data_err_colors (td0 N M D V : List (String × Val)) (e : String)
    (hN : (if dmem td0 "name" then td0 else dset td0 "name" (Val.str "unnamed_theme")) = N)
    (hM : fix_display_name N = Except.ok M)
    (hD : (if dmem M "description" then M
       else dset M "description" (Val.str "A custom VS Code theme")) = D)
    (hV : (if dmem D "version" then D else dset D "version" (Val.str "1.0.0")) = V)
    (hC : fix_colors_step V = Except.error e) :
    fix_theme_data td0 = Except.error e := by
  simp only [fix_theme_data, hN, hM, hD, hV, hC, except_bind_ok]
  rfl

theorem fix_display_name_props (N M : List (String × Val))
    (h : fix_display_name N = Except.ok M) :
    dmem M "display_name" = true ∧ (M = N ∨ ∃ w, M = dset N "display_name" w) := by
  unfold fix_display_name at h
  by_cases h0 : dmem N "display_name" = true
  · rw [if_pos h0] at h
    have h1 : Except.ok N = Except.ok M := h
    injection h1 with h2
    subst h2
    exact ⟨h0, Or.inl rfl⟩
  · rw [if_neg h0] at h
    cases hn : dlookup N "name" with
    | none =>
      rw [hn] at h
      exact Except.noConfusion h
    | some nv =>
      rw [hn] at h
      cases nv with
      | str n =>
        have h1 : Except.ok (dset N "display_name"
            (Val.str (pyTitle (underscoreToSpace n)))) = Except.ok M := h
        injection h1 with h2
        subst h2
        exact ⟨dmem_dset_self N "display_name" _, Or.inr ⟨_, rfl⟩⟩
      | int k => exact Except.noConfusion h
      | list xs => exact Except.noConfusion h
      | dict d => exact Except.noConfusion h
      | null => exact Except.noConfusion h

theorem minimal_colors_shape :
    colorsShape tail678 (_get_minimal_required_colors.map fun p => (p.1, Val.str p.2)) := by
  refine ⟨?_, by decide, by decide⟩
  intro kv hkv
  fin_cases hkv <;> exact ⟨_, rfl, rfl, Or.inl rfl⟩

theorem fix_colors_step_props (V td5 : List (String × Val))
    (h : fix_colors_step V = Except.ok td5) :
    (∃ cq, dlookup td5 "colors" = some (Val.dict cq) ∧ colorsShape tail678 cq) ∧
      (∀ k, k ≠ "colors" → dlookup td5 k = dlookup V k) := by
  unfold fix_colors_step at h
  cases hc : dlookup V "colors" with
  | none =>
    rw [hc] at h
    have h1 : Except.ok (dset V "colors"
        (Val.dict (_get_minimal_required_colors.map fun p => (p.1, Val.str p.2)))) =
        Except.ok td5 := h
    injection h1 with h2
    subst h2
    exact ⟨⟨_, dlookup_dset_self V "colors" _, minimal_colors_shape⟩,
      fun k hk => dlookup_dset_ne V "colors" k _ hk⟩
  | some cv =>
    rw [hc] at h
    cases cv with
    | dict c =>
      have h1 : Except.ok (dset V "colors" (Val.dict (_fix_colors c))) = Except.ok td5 := h
      injection h1 with h2
      subst h2
      exact ⟨⟨_, dlookup_dset_self V "colors" _, fix_colors_tail678 c⟩,
        fun k hk => dlookup_dset_ne V "colors" k _ hk⟩
    | str s => exact Except.noConfusion h
    | int n => exact Except.noConfusion h
    | list xs => exact Except.noConfusion h
    | null => exact Except.noConfusion h

theorem fix_token_colors_stable (tv : Val) : tokensStable (_fix_token_colors tv) := by
  cases tv with
  | list ts => exact tokens_out_stable ts
  | str s =>
    intro u hu
    exact absurd hu (List.not_mem_nil u)
  | int n =>
    intro u hu
    exact absurd hu (List.not_mem_nil u)
  | dict d =>
    intro u hu
    exact absurd hu (List.not_mem_nil u)
  | null =>
    intro u hu
    exact absurd hu (List.not_mem_nil u)

theorem fix_token_step_shape (Vp : Val → Prop) (td5 : List (String × Val))
    (h1 : dmem td5 "name" = true) (h2 : dmem td5 "display_name" = true)
    (h3 : dmem td5 "description" = true) (h4 : dmem td5 "version" = true)
    (cq : List (String × Val)) (hc : dlookup td5 "colors" = some (Val.dict cq))
    (hcs : colorsShape Vp cq) :
    tdShape Vp (fix_token_step td5) := by
  unfold fix_token_step
  cases htv : dlookup td5 "token_colors" with
  | none =>
    refine ⟨h1, h2, h3, h4, ⟨cq, hc, hcs⟩, ?_⟩
    intro tv htv2
    rw [htv] at htv2
    exact Option.noConfusion htv2
  | some tv =>
    refine ⟨dmem_dset_mono _ _ _ _ h1, dmem_dset_mono _ _ _ _ h2,
      dmem_dset_mono _ _ _ _ h3, dmem_dset_mono _ _ _ _ h4, ⟨cq, ?_, hcs⟩, ?_⟩
    · rw [dlookup_dset_ne td5 "token_colors" "colors" _ (by decide)]
      exact hc
    · intro tv2 htv2
      rw [dlookup_dset_self] at htv2
      injection htv2 with h7
      exact ⟨_, h7.symm, fix_token_colors_stable tv⟩

theorem fix_theme_data_shape1 (td0 td2 : List (String × Val))
    (h : fix_theme_data td0 = Except.ok td2) : tdShape tail678 td2 := by
  have hNname : dmem (if dmem td0 "name" then td0
      else dset td0 "name" (Val.str "unnamed_theme")) "name" = true :=
    if_dset_mem_self td0 "name" _
  cases hM : fix_display_name (if dmem td0 "name" then td0
      else dset td0 "name" (Val.str "unnamed_theme")) with
  | error e =>
    rw [fix_theme_data_err_display td0 _ e rfl hM] at h
    exact Except.noConfusion h
  | ok M =>
    obtain ⟨hMdn, hMne⟩ := fix_display_name_props _ M hM
    have hMname : dmem M "name" = true := by
      rcases hMne with he | ⟨w, he⟩
      · rw [he]
        exact hNname
      · rw [he]
        exact dmem_dset_mono _ _ _ _ hNname
    obtain ⟨D, hDeq⟩ : ∃ D, (if dmem M "description" then M
        else dset M "description" (Val.str "A custom VS Code theme")) = D := ⟨_, rfl⟩
    have hD1 : dmem D "name" = true := by
      rw [← hDeq]
      exact if_dset_mem_mono M "description" "name" _ hMname
    have hD2 : dmem D "display_name" = true := by
      rw [← hDeq]
      exact if_dset_mem_mono M "description" "display_name" _ hMdn
    have hD3 : dmem D "description" = true := by
      rw [← hDeq]
      exact if_dset_mem_self M "description" _
    obtain ⟨V, hVeq⟩ : ∃ V, (if dmem D "version" then D
        else dset D "version" (Val.str "1.0.0")) = V := ⟨_, rfl⟩
    have hV1 : dmem V "name" = true := by
      rw [← hVeq]
      exact if_dset_mem_mono D "version" "name" _ hD1
    have hV2 : dmem V "display_name" = true := by
      rw [← hVeq]
      exact if_dset_mem_mono D "version" "display_name" _ hD2
    have hV3 : dmem V "description" = true := by
      rw [← hVeq]
      exact if_dset_mem_mono D "version" "description" _ hD3
    have hV4 : dmem V "version" = true := by
      rw [← hVeq]
      exact if_dset_mem_self D "version" _
    cases hC : fix_colors_step V with
    | error e =>
      rw [fix_theme_data_err_colors td0 _ M D V e rfl hM hDeq hVeq hC] at h
      exact Except.noConfusion h
    | ok td5 =>
      rw [fix_theme_data_eq td0 _ M D V td5 rfl hM hDeq hVeq hC] at h
      injection h with h6
      subst h6
      obtain ⟨⟨cq, hcq, hcs⟩, hframe⟩ := fix_colors_step_props V td5 hC
      have hmemf : ∀ k, k ≠ "colors" → dmem V k = true → dmem td5 k = true := by
        intro k hk hv
        show (dlookup td5 k).isSome = true
        rw [hframe k hk]
        exact hv
      exact fix_token_step_shape tail678 td5
        (hmemf "name" (by decide) hV1) (hmemf "display_name" (by decide) hV2)
        (hmemf "description" (by decide) hV3) (hmemf "version" (by decide) hV4)
        cq hcq hcs

theorem fix_theme_data_step (Vp Vq : Val → Prop)
    (hVpq : ∀ c, colorsShape Vp c → colorsShape Vq (_fix_colors c))
    (td td2 : List (String × Val)) (hshape : tdShape Vp td)
    (h : fix_theme_data td = Except.ok td2) : tdShape Vq td2 := by
  obtain ⟨h1, h2, h3, h4, ⟨c, hc, hcs⟩, htok⟩ := hshape
  have hM : fix_display_name td = Except.ok td := by
    unfold fix_display_name
    rw [if_pos h2]
    rfl
  have hC : fix_colors_step td = Except.ok (dset td "colors" (Val.dict (_fix_colors c))) := by
    unfold fix_colors_step
    rw [hc]
    rfl
  rw [fix_theme_data_eq td td td td td _ (if_pos h1) hM (if_pos h3) (if_pos h4) hC] at h
  injection h with h6
  subst h6
  exact fix_token_step_shape Vq _ (dmem_dset_mono _ _ _ _ h1) (dmem_dset_mono _ _ _ _ h2)
    (dmem_dset_mono _ _ _ _ h3) (dmem_dset_mono _ _ _ _ h4) (_fix_colors c)
    (dlookup_dset_self td "colors" _) (hVpq c hcs)

theorem fix_theme_data_fix (td : List (String × Val)) (hshape : tdShape tail68up td) :
    fix_theme_data td = Except.ok td := by
  obtain ⟨h1, h2, h3, h4, ⟨c, hc, hcs⟩, htok⟩ := hshape
  have hM : fix_display_name td = Except.ok td := by
    unfold fix_display_name
    rw [if_pos h2]
    rfl
  have hC : fix_colors_step td = Except.ok td := by
    unfold fix_colors_step
    rw [hc]
    show Except.ok (dset td "colors" (Val.dict (_fix_colors c))) = Except.ok td
    rw [fix_colors_id c hcs, dset_lookup_self td "colors" _ hc]
  rw [fix_theme_data_eq td td td td td td (if_pos h1) hM (if_pos h3) (if_pos h4) hC]
  unfold fix_token_step
  cases htv : dlookup td "token_colors" with
  | none => rfl
  | some tv =>
    obtain ⟨ts, htse, hstab⟩ := htok tv htv
    subst htse
    have hft : _fix_token_colors (Val.list ts) = ts := by
      show ts.filterMap fix_token = ts
      exact filterMap_self fix_token ts hstab
    show Except.ok (dset td "token_colors" (Val.list (_fix_token_colors (Val.list ts)))) =
      Except.ok td
    rw [hft, dset_lookup_self td "token_colors" _ htv]

theorem fix_theme_ok_shape (x y : Val) (h : fix_theme x = Except.ok y) :
    themeWrap (tdShape tail678) y := by
  cases x with
  | str s => exact Except.noConfusion h
  | int n => exact Except.noConfusion h
  | list xs => exact Except.noConfusion h
  | null => exact Except.noConfusion h
  | dict kvs =>
    have h0 : (if dmem kvs "theme" = true then
        (match dlookup kvs "theme" with
         | some (.dict td) =>
           (fix_theme_data td).map fun td2 => Val.dict (dset kvs "theme" (.dict td2))
         | _ => throw "TypeError: theme data is not a dict")
      else (fix_theme_data kvs).map fun td2 => Val.dict [("theme", Val.dict td2)]) =
        Except.ok y := h
    by_cases ht : dmem kvs "theme" = true
    · rw [if_pos ht] at h0
      cases hl : dlookup kvs "theme" with
      | none =>
        rw [hl] at h0
        exact Except.noConfusion h0
      | some tv =>
        rw [hl] at h0
        cases tv with
        | dict td =>
          have h0b : Except.map (fun td2 => Val.dict (dset kvs "theme" (Val.dict td2)))
              (fix_theme_data td) = Except.ok y := h0
          cases hf : fix_theme_data td with
          | error e =>
            rw [hf] at h0b
            exact Except.noConfusion h0b
          | ok td1 =>
            rw [hf] at h0b
            have h1 : Except.ok (Val.dict (dset kvs "theme" (Val.dict td1))) =
                Except.ok y := h0b
            injection h1 with h2
            subst h2
            exact ⟨_, td1, rfl, dlookup_dset_self kvs "theme" _,
              fix_theme_data_shape1 td td1 hf⟩
        | str s => exact Except.noConfusion h0
        | int n => exact Except.noConfusion h0
        | list xs => exact Except.noConfusion h0
        | null => exact Except.noConfusion h0
    · rw [if_neg ht] at h0
      have h0b : Except.map (fun td2 => Val.dict [("theme", Val.dict td2)])
          (fix_theme_data kvs) = Except.ok y := h0
      cases hf : fix_theme_data kvs with
      | error e =>
        rw [hf] at h0b
        exact Except.noConfusion h0b
      | ok td1 =>
        rw [hf] at h0b
        have h1 : Except.ok (Val.dict [("theme", Val.dict td1)]) = Except.ok y := h0b
        injection h1 with h2
        subst h2
        exact ⟨_, td1, rfl, rfl, fix_theme_data_shape1 kvs td1 hf⟩

theorem fix_theme_wrap_step (P Q : List (String × Val) → Prop)
    (hstep : ∀ td td2, P td → fix_theme_data td = Except.ok td2 → Q td2)
    (y z : Val) (hw : themeWrap P y) (h : fix_theme y = Except.ok z) :
    themeWrap Q z := by
  obtain ⟨kvs, td, hye, hl, hP⟩ := hw
  subst hye
  have h0 : (if dmem kvs "theme" = true then
      (match dlookup kvs "theme" with
       | some (.dict td) =>
         (fix_theme_data td).map fun td2 => Val.dict (dset kvs "theme" (.dict td2))
       | _ => throw "TypeError: theme data is not a dict")
    else (fix_theme_data kvs).map fun td2 => Val.dict [("theme", Val.dict td2)]) =
      Except.ok z := h
  have ht : dmem kvs "theme" = true := by
    show (dlookup kvs "theme").isSome = true
    rw [hl]
    rfl
  rw [if_pos ht, hl] at h0
  have h0b : Except.map (fun td2 => Val.dict (dset kvs "theme" (Val.dict td2)))
      (fix_theme_data td) = Except.ok z := h0
  cases hf : fix_theme_data td with
  | error e =>
    rw [hf] at h0b
    exact Except.noConfusion h0b
  | ok td1 =>
    rw [hf] at h0b
    have h1 : Except.ok (Val.dict (dset kvs "theme" (Val.dict td1))) = Except.ok z := h0b
    injection h1 with h2
    subst h2
    exact ⟨_, td1, rfl, dlookup_dset_self kvs "theme" _, hstep td td1 hP hf⟩

theorem fix_theme_fixpoint (w : Val) (hw : themeWrap (tdShape tail68up) w) :
    fix_theme w = Except.ok w := by
  obtain ⟨kvs, td, hwe, hl, hshape⟩ := hw
  subst hwe
  have ht : dmem kvs "theme" = true := by
    show (dlookup kvs "theme").isSome = true
    rw [hl]
    rfl
  show (if dmem kvs "theme" = true then
      (match dlookup kvs "theme" with
       | some (.dict td) =>
         (fix_theme_data td).map fun td2 => Val.dict (dset kvs "theme" (.dict td2))
       | _ => throw "TypeError: theme data is not a dict")
    else (fix_theme_data kvs).map fun td2 => Val.dict [("theme", Val.dict td2)]) =
      Except.ok (Val.dict kvs)
  rw [if_pos ht, hl]
  show Except.map (fun td2 => Val.dict (dset kvs "theme" (Val.dict td2)))
      (fix_theme_data td) = Except.ok (Val.dict kvs)
  rw [fix_theme_data_fix td hshape]
  show Except.ok (Val.dict (dset kvs "theme" (Val.dict td))) = Except.ok (Val.dict kvs)
  rw [dset_lookup_self kvs "theme" _ hl]

/-- C2: structural repair is not idempotent, but it stabilizes after
three applications: whenever three successive runs of `fix_theme`
succeed, the third output is a fixpoint of `fix_theme`. (Two runs do
not suffice: the first run can emit lowercase default colors that the
second run uppercases, and a bare hex value matched with a trailing
newline survives the first run with a 7-character tail that the second
run drops and replaces by a lowercase default, which the third run
uppercases.) -/
theorem claim2_fix_third_iterate_fixpoint (x y z w : Val)
    (h1 : fix_theme x = Except.ok y) (h2 : fix_theme y = Except.ok z)
    (h3 : fix_theme z = Except.ok w) :
    fix_theme w = Except.ok w := by
  have s1 : themeWrap (tdShape tail678) y := fix_theme_ok_shape x y h1
  have s2 : themeWrap (tdShape tail68) z :=
    fix_theme_wrap_step (tdShape tail678) (tdShape tail68)
      (fun td td2 hp hf => fix_theme_data_step tail678 tail68 fix_colors_tail68 td td2 hp hf)
      y z s1 h2
  have s3 : themeWrap (tdShape tail68up) w :=
    fix_theme_wrap_step (tdShape tail68) (tdShape tail68up)
      (fun td td2 hp hf => fix_theme_data_step tail68 tail68up
        (fun c hcs => (fix_colors_tail68up c hcs).2) td td2 hp hf)
      z w s2 h3
  exact fix_theme_fixpoint w s3

/-- C2: `fix` is not idempotent: on the empty theme the first run
installs lowercase default colors and the second run uppercases them,
so `fix (fix x)` differs from `fix x` at `editor.background`. -/
theorem claim2_counterexample :
    (fix_theme (Val.dict [])).map themeEBg = Except.ok (some "#1e1e1e") ∧
    (fix_theme (Val.dict []) >>= fix_theme).map themeEBg = Except.ok (some "#1E1E1E") ∧
    some ("#1e1e1e" : String) ≠ some ("#1E1E1E" : String) :=
  ⟨rfl, rfl, by decide⟩

theorem claim2_fix_third_iterate_fixpoint_witness :
    fix_theme (Val.dict [("colors", Val.dict [("editor.background", Val.str "abcdef\n")])]) =
      Except.ok (Val.dict [("theme", Val.dict
        [("colors", Val.dict
          [("editor.background", Val.str "#ABCDEF\n"),
           ("editor.foreground", Val.str "#d4d4d4"),
           ("activityBar.background", Val.str "#333333"),
           ("activityBar.foreground", Val.str "#ffffff"),
           ("sideBar.background", Val.str "#252526"),
           ("sideBar.foreground", Val.str "#cccccc"),
           ("statusBar.background", Val.str "#007acc"),
           ("statusBar.foreground", Val.str "#ffffff")]),
         ("name", Val.str "unnamed_theme"),
         ("display_name", Val.str "Unnamed Theme"),
         ("description", Val.str "A custom VS Code theme"),
         ("version", Val.str "1.0.0")])]) ∧
    fix_theme (Val.dict [("theme", Val.dict
        [("colors", Val.dict
          [("editor.background", Val.str "#ABCDEF\n"),
           ("editor.foreground", Val.str "#d4d4d4"),
           ("activityBar.background", Val.str "#333333"),
           ("activityBar.foreground", Val.str "#ffffff"),
           ("sideBar.background", Val.str "#252526"),
           ("sideBar.foreground", Val.str "#cccccc"),
           ("statusBar.background", Val.str "#007acc"),
           ("statusBar.foreground", Val.str "#ffffff")]),
         ("name", Val.str "unnamed_theme"),
         ("display_name", Val.str "Unnamed Theme"),
         ("description", Val.str "A custom VS Code theme"),
         ("version", Val.str "1.0.0")])]) =
      Except.ok (Val.dict [("theme", Val.dict
        [("colors", Val.dict
          [("editor.foreground", Val.str "#D4D4D4"),
           ("activityBar.background", Val.str "#333333"),
           ("activityBar.foreground", Val.str "#FFFFFF"),
           ("sideBar.background", Val.str "#252526"),
           ("sideBar.foreground", Val.str "#CCCCCC"),
           ("statusBar.background", Val.str "#007ACC"),
           ("statusBar.foreground", Val.str "#FFFFFF"),
           ("editor.background", Val.str "#1e1e1e")]),
         ("name", Val.str "unnamed_theme"),
         ("display_name", Val.str "Unnamed Theme"),
         ("description", Val.str "A custom VS Code theme"),
         ("version", Val.str "1.0.0")])]) ∧
    fix_theme (Val.dict [("theme", Val.dict
        [("colors", Val.dict
          [("editor.foreground", Val.str "#D4D4D4"),
           ("activityBar.background", Val.str "#333333"),
           ("activityBar.foreground", Val.str "#FFFFFF"),
           ("sideBar.background", Val.str "#252526"),
           ("sideBar.foreground", Val.str "#CCCCCC"),
           ("statusBar.background", Val.str "#007ACC"),
           ("statusBar.foreground", Val.str "#FFFFFF"),
           ("editor.background", Val.str "#1e1e1e")]),
         ("name", Val.str "unnamed_theme"),
         ("display_name", Val.str "Unnamed Theme"),
         ("description", Val.str "A custom VS Code theme"),
         ("version", Val.str "1.0.0")])]) =
      Except.ok (Val.dict [("theme", Val.dict
        [("colors", Val.dict
          [("editor.foreground", Val.str "#D4D4D4"),
           ("activityBar.background", Val.str "#333333"),
           ("activityBar.foreground", Val.str "#FFFFFF"),
           ("sideBar.background", Val.str "#252526"),
           ("sideBar.foreground", Val.str "#CCCCCC"),
           ("statusBar.background", Val.str "#007ACC"),
           ("statusBar.foreground", Val.str "#FFFFFF"),
           ("editor.background", Val.str "#1E1E1E")]),
         ("name", Val.str "unnamed_theme"),
         ("display_name", Val.str "Unnamed Theme"),
         ("description", Val.str "A custom VS Code theme"),
         ("version", Val.str "1.0.0")])]) ∧
    fix_theme (Val.dict [("theme", Val.dict
        [("colors", Val.dict
          [("editor.foreground", Val.str "#D4D4D4"),
           ("activityBar.background", Val.str "#333333"),
           ("activityBar.foreground", Val.str "#FFFFFF"),
           ("sideBar.background", Val.str "#252526"),
           ("sideBar.foreground", Val.str "#CCCCCC"),
           ("statusBar.background", Val.str "#007ACC"),
           ("statusBar.foreground", Val.str "#FFFFFF"),
           ("editor.background", Val.str "#1E1E1E")]),
         ("name", Val.str "unnamed_theme"),
         ("display_name", Val.str "Unnamed Theme"),
         ("description", Val.str "A custom VS Code theme"),
         ("version", Val.str "1.0.0")])]) =
      Except.ok (Val.dict [("theme", Val.dict
        [("colors", Val.dict
          [("editor.foreground", Val.str "#D4D4D4"),
           ("activityBar.background", Val.str "#333333"),
           ("activityBar.foreground", Val.str "#FFFFFF"),
           ("sideBar.background", Val.str "#252526"),
           ("sideBar.foreground", Val.str "#CCCCCC"),
           ("statusBar.background", Val.str "#007ACC"),
           ("statusBar.foreground", Val.str "#FFFFFF"),
           ("editor.background", Val.str "#1E1E1E")]),
         ("name", Val.str "unnamed_theme"),
         ("display_name", Val.str "Unnamed Theme"),
         ("description", Val.str "A custom VS Code theme"),
         ("version", Val.str "1.0.0")])]) :=
  ⟨rfl, rfl, rfl,
    claim2_fix_third_iterate_fixpoint
      (Val.dict [("colors", Val.dict [("editor.background", Val.str "abcdef\n")])])
      _ _ _ rfl rfl rfl⟩

end ThemeGen
